import Mathlib

set_option autoImplicit false

/-!
Verification development for the HotSpot-Hunter core: the importance-rating
pipeline (`app/ai/importance_analyzer.py`), the LLM client retry loop
(`app/ai/llm_client.py`), and the local storage backend
(`app/storage/local.py`).  Remote I/O (the classifier HTTP call, the SQLite
mixin primitives, the notification sink) is modelled by explicit oracle
parameters; everything the cited Python code computes from those oracle
answers is embedded as executable Lean functions that mirror the source
line by line.
-/

namespace HotSpot

/-- A JSON value, as produced by `json.loads` on a classifier response body.
Numbers are modelled as integers (the classifier protocol only ever carries
rating strings, so number precision is irrelevant to the embedded logic). -/
inductive Json where
  | null
  | bool (b : Bool)
  | num (n : Int)
  | str (s : String)
  | arr (xs : List Json)
  | obj (fields : List (String × Json))

/-- Python `value == someString`: true exactly when the value is an equal
string (Python cross-type `==` between `str` and non-`str` is `False`). -/
def Json.eqStr : Json → String → Bool
  | .str s, t => s = t
  | _, _ => false

/-- Python `str(value)` for a JSON value.  The cases the pipeline inspects
are strings and scalars; for containers Python renders a bracketed listing,
abbreviated here (it starts with a bracket, so its lowercase form is never
one of the four rating words, which is the only property the code uses). -/
def pyStr : Json → String
  | .null => "None"
  | .bool true => "True"
  | .bool false => "False"
  | .num n => toString n
  | .str s => s
  | .arr _ => "[...]"
  | .obj _ => "\x7b...\x7d"

/-- Dictionary lookup on a JSON object's field list (Python `dict` has
unique keys; the first binding wins). -/
def jsonLookup (fields : List (String × Json)) (key : String) : Option Json :=
  (fields.find? (fun p => p.1 = key)).map (·.2)

/-- Python `str.lower()`, as a per-character ASCII case fold (the rating
vocabulary is ASCII, which is all the embedded code compares). -/
def strLower (s : String) : String := ⟨s.data.map Char.toLower⟩

/-- The closed rating vocabulary check
`importance in ["critical", "high", "medium", "low"]`
(`importance_analyzer.py:110` and `:265` and `:277`). -/
def isValidRating (s : String) : Bool :=
  s = "critical" || s = "high" || s = "medium" || s = "low"

/-- Outcome of one classifier API call as seen by the analyzer code:
either a response body whose extracted payload parses as JSON `j`,
a body that fails JSON parsing (`json.JSONDecodeError`), or the call
raising (timeout / connection error / HTTP error after the client's
internal retries — the typed errors of `llm_client.py`).  An absent/empty
response body fails `json.loads` and is the `malformed` case. -/
inductive CallOutcome where
  | ok (j : Json)
  | malformed
  | exn

/-- `analyze_news_importance` (`importance_analyzer.py:17-131`), given the
outcome of its one API call.  `hasApiKey` is the `ai_config.get("API_KEY")`
truthiness test at line 42.  Every failure path (no key, call raised,
JSON decode error, non-dict payload, non-string or out-of-vocabulary
rating) returns the empty string, exactly as in the source where each is
caught by the surrounding `except` clauses. -/
def analyze_news_importance (hasApiKey : Bool) (resp : CallOutcome) : String :=
  if !hasApiKey then ""
  else
    match resp with
    | .exn => ""
    | .malformed => ""
    | .ok j =>
      match j with
      | .obj fields =>
        -- data.get("importance", "").lower()  (line 107)
        match (jsonLookup fields "importance").getD (.str "") with
        | .str s =>
          let importance := strLower s
          if isValidRating importance then importance else ""
        | _ => ""  -- .lower() on a non-string raises, caught at line 120
      | _ => ""    -- .get on a non-dict raises, caught at line 120

theorem analyze_single_mem_vocab (hasApiKey : Bool) (resp : CallOutcome) :
    analyze_news_importance hasApiKey resp = "" ∨
      isValidRating (analyze_news_importance hasApiKey resp) = true := by
  unfold analyze_news_importance
  cases hasApiKey with
  | false => simp
  | true =>
    cases resp with
    | exn => simp
    | malformed => simp
    | ok j =>
      cases j with
      | obj fields =>
        simp only [Bool.not_true, if_false]
        cases h : (jsonLookup fields "importance").getD (.str "") with
        | str s =>
          by_cases hv : isValidRating (strLower s) = true
          · right
            simp [hv]
          · left
            simp [hv]
        | null => simp
        | bool b => simp
        | num n => simp
        | arr xs => simp
        | obj fs => simp
      | null => simp
      | bool b => simp
      | num n => simp
      | str s => simp
      | arr xs => simp

/-- One entry of the `news_items` list handed to `batch_analyze_importance`
(a Python dict with `title`, `platform_id`, `platform_name`, `rank`). -/
structure NewsInput where
  title : String
  platform_id : String
  platform_name : String
  rank : Nat
  deriving DecidableEq, Repr

/-- The `results` Python dict of `batch_analyze_importance`, as an
association list with dict semantics: `setResult` overwrites an existing
binding in place and otherwise appends (Python insertion order). -/
def setResult (m : List ((String × String) × String)) (k : String × String)
    (v : String) : List ((String × String) × String) :=
  if m.any (fun p => p.1 = k) then m.map (fun p => if p.1 = k then (k, v) else p)
  else m ++ [(k, v)]

/-- Lookup in the results dict. -/
def findRating (m : List ((String × String) × String)) (k : String × String) :
    Option String :=
  (m.find? (fun p => p.1 = k)).map (·.2)

/-- The `results`-array branch of the batch-response parser
(`importance_analyzer.py:258-270`): walk the `results` list; a non-dict
element or a non-string `importance` value raises (second component
`true`, caught by the outer `except` at line 306); a valid rating is
assigned to the first requested key with exactly that title
(`if key[0] == title: results[key] = importance; break`). -/
def processResultsList (keys : List (String × String)) :
    List Json → List ((String × String) × String) →
      List ((String × String) × String) × Bool
  | [], acc => (acc, false)
  | r :: rest, acc =>
    match r with
    | .obj fields =>
      let titleVal := (jsonLookup fields "title").getD (.str "")
      match (jsonLookup fields "importance").getD (.str "") with
      | .str s =>
        let importance := strLower s
        let acc' :=
          if isValidRating importance then
            match keys.find? (fun k => titleVal.eqStr k.1) with
            | some k => setResult acc k importance
            | none => acc
          else acc
        processResultsList keys rest acc'
      | _ => (acc, true)   -- .lower() on a non-string raises
    | _ => (acc, true)     -- .get on a non-dict element raises

/-- One iteration of the legacy direct-dictionary branch
(`importance_analyzer.py:271-278`): `if key[0] in data:
importance = str(data[title]).lower(); if importance in [...]:
results[key] = importance`. -/
def compatStep (fields : List (String × Json))
    (acc : List ((String × String) × String)) (k : String × String) :
    List ((String × String) × String) :=
  match jsonLookup fields k.1 with
  | some v =>
    if isValidRating (strLower (pyStr v)) then
      setResult acc k (strLower (pyStr v))
    else acc
  | none => acc

/-- The legacy direct-dictionary branch (`importance_analyzer.py:271-278`):
`for key in news_keys: ...`.  Note: every requested key whose title is in
the dict is assigned. -/
def compatAssign (fields : List (String × Json)) (keys : List (String × String))
    (acc : List ((String × String) × String)) :
    List ((String × String) × String) :=
  keys.foldl (compatStep fields) acc

/-- Whether `results` occurs at the head of the character list. -/
def isResultsPrefix : List Char → Bool
  | 'r' :: 'e' :: 's' :: 'u' :: 'l' :: 't' :: 's' :: _ => true
  | _ => false

/-- Python `"results" in s` for a string payload: substring containment,
scanned position by position. -/
def containsResults : List Char → Bool
  | [] => false
  | c :: rest => isResultsPrefix (c :: rest) || containsResults rest

/-- Processing of one successfully JSON-parsed batch response
(`importance_analyzer.py:255-280`).  Returns the updated results dict and
whether an exception was raised mid-processing (which the source's outer
`except Exception` turns into a per-item fallback).  The Python condition
`"results" in data and isinstance(data["results"], list)` is evaluated per
payload shape: on a dict it is a key test; on a list/string, membership is
element/substring containment and a positive test then raises `TypeError`
at `data["results"]`; on a scalar the `in` test itself raises. -/
def processBatchJson (j : Json) (keys : List (String × String))
    (acc : List ((String × String) × String)) :
    List ((String × String) × String) × Bool :=
  match j with
  | .obj fields =>
    match jsonLookup fields "results" with
    | some (.arr xs) => processResultsList keys xs acc
    | _ => (compatAssign fields keys acc, false)  -- elif isinstance(data, dict)
  | .arr xs =>
    if xs.any (fun e => e.eqStr "results") then (acc, true) else (acc, false)
  | .str s =>
    if containsResults s.data then (acc, true) else (acc, false)
  | _ => (acc, true)

/-- Fuel-indexed worker for `chunks`; each step consumes at least the
head element, so `l.length` fuel always suffices. -/
def chunksGo {α : Type} (bs : Nat) : Nat → List α → List (List α)
  | _, [] => []
  | 0, _ :: _ => []
  | fuel + 1, x :: xs => (x :: xs).take bs :: chunksGo bs fuel (xs.drop (bs - 1))

/-- `news_items[i:i + batch_size]` chunking of the batch loop
(`importance_analyzer.py:187-188`); meaningful for `bs > 0` (Python's
`range` would raise for a non-positive step). -/
def chunks {α : Type} (bs : Nat) (l : List α) : List (List α) :=
  chunksGo bs l.length l

/-- Externally visible actions of one `batch_analyze_importance` run:
batch API calls, per-item fallback API calls, and `time.sleep` delays. -/
inductive CallEvent where
  | batchCall (keys : List (String × String))
  | singleCall (title : String) (platformId : String)
  | sleep (seconds : Nat)
  deriving DecidableEq, Repr

/-- The remote classifier, as an oracle: the response outcome of the batch
call made for chunk `i`, and of the `n`-th per-item fallback call of the
run. -/
structure ClassifierEnv where
  batchResponse : Nat → CallOutcome
  singleResponse : Nat → CallOutcome

/-- Accumulated state of one `batch_analyze_importance` run: the results
dict, the number of per-item fallback calls made so far, and the event
trace. -/
structure RunState where
  results : List ((String × String) × String)
  singleCount : Nat
  trace : List CallEvent
  deriving Repr

/-- The `if title and platform_id` filter applied both when building
`news_keys` (`importance_analyzer.py:205`) and in both fallback loops
(lines 294 and 322). -/
def itemOk (it : NewsInput) : Bool :=
  !(it.title == "") && !(it.platform_id == "")

/-- One iteration of the per-item fallback loop
(`importance_analyzer.py:288-304` and, identically, `316-333`): for an
item passing the filter, one `analyze_news_importance` call (the run's
config has a non-empty API key, checked at line 161), the rating stored
only if non-empty, then `time.sleep(1)`. -/
def fallbackStep (env : ClassifierEnv) (st : RunState) (it : NewsInput) :
    RunState :=
  if itemOk it then
    let importance := analyze_news_importance true (env.singleResponse st.singleCount)
    { results :=
        if importance ≠ "" then
          setResult st.results (it.title, it.platform_id) importance
        else st.results
      singleCount := st.singleCount + 1
      trace := st.trace ++ [CallEvent.singleCall it.title it.platform_id,
        CallEvent.sleep 1] }
  else st

/-- The per-item fallback over one batch. -/
def runFallback (env : ClassifierEnv) (st : RunState) (batch : List NewsInput) :
    RunState :=
  batch.foldl (fallbackStep env) st

/-- `news_keys` of one batch (`importance_analyzer.py:197-209`). -/
def batchKeys (batch : List NewsInput) : List (String × String) :=
  (batch.filter itemOk).map (fun it => (it.title, it.platform_id))

/-- The inter-batch `time.sleep(2)` for every chunk after the first
(`importance_analyzer.py:191-192`). -/
def chunkPre (chunkIdx : Nat) (st : RunState) : RunState :=
  if chunkIdx > 0 then { st with trace := st.trace ++ [CallEvent.sleep 2] }
  else st

/-- The batch API call event. -/
def chunkCalled (st : RunState) (batch : List NewsInput) : RunState :=
  { st with trace := st.trace ++ [CallEvent.batchCall (batchKeys batch)] }

/-- Disposition of the batch response (`importance_analyzer.py:235-335`):
a raised call (`except Exception`, line 306) and a `json.JSONDecodeError`
(line 282) both degrade to the per-item fallback over this batch; a
parsed payload is processed, falling back likewise when an exception is
raised mid-processing. -/
def chunkDispatch (env : ClassifierEnv) (chunkIdx : Nat) (st : RunState)
    (batch : List NewsInput) : RunState :=
  match env.batchResponse chunkIdx with
  | .exn => runFallback env st batch
  | .malformed => runFallback env st batch
  | .ok j =>
    match processBatchJson j (batchKeys batch) st.results with
    | (res, true) => runFallback env { st with results := res } batch
    | (res, false) => { st with results := res }

/-- Processing of one chunk of the batch loop
(`importance_analyzer.py:187-335`): the inter-batch delay, the skip when
no item passes the filter (`if not news_list_text: continue`), then the
batch call and its disposition. -/
def processChunk (env : ClassifierEnv) (chunkIdx : Nat) (st : RunState)
    (batch : List NewsInput) : RunState :=
  if batchKeys batch = [] then chunkPre chunkIdx st
  else chunkDispatch env chunkIdx (chunkCalled (chunkPre chunkIdx st) batch)
    batch

/-- The batch loop, indexed by chunk number. -/
def runBatches (env : ClassifierEnv) : Nat → RunState → List (List NewsInput) →
    RunState
  | _, st, [] => st
  | i, st, b :: rest => runBatches env (i + 1) (processChunk env i st b) rest

/-- `batch_analyze_importance` (`importance_analyzer.py:134-337`), given
the classifier oracle.  `hasApiKey` is the `ai_config.get("API_KEY")`
truthiness test at line 161; an empty input list or missing key returns
the empty results dict with no calls made. -/
def batch_analyze_importance (hasApiKey : Bool) (env : ClassifierEnv)
    (newsItems : List NewsInput) (batchSize : Nat) : RunState :=
  if newsItems = [] then ⟨[], 0, []⟩
  else if !hasApiKey then ⟨[], 0, []⟩
  else runBatches env 0 ⟨[], 0, []⟩ (chunks batchSize newsItems)

/-! ## The local storage backend's enrichment worker (`app/storage/local.py`) -/

/-- One stored news item, with the fields the enrichment worker reads
(`item.title`, `item.rank`, `item.url` in `local.py:191-257`; the class
itself lives in `app/storage/base.py`). -/
structure NewsRecord where
  title : String
  rank : Nat
  url : String
  deriving DecidableEq, Repr

/-- The `NewsData` snapshot handed to `save_news_data`: `items` maps
platform id to its ordered item list, `id_to_name` maps platform id to
display name (both Python dicts, modelled in insertion order). -/
structure NewsData where
  date : String
  items : List (String × List NewsRecord)
  id_to_name : List (String × String)
  deriving DecidableEq, Repr

/-- `data.id_to_name.get(platform_id, platform_id)` (`local.py:190`). -/
def lookupName (data : NewsData) (pid : String) : String :=
  (((data.id_to_name.find? (fun p => p.1 = pid)).map (·.2)).getD pid)

/-- `max_analyze_per_run = 100` (`local.py:211`). -/
def max_analyze_per_run : Nat := 100

/-- The gathering loop of `_analyze_news_importance_async`
(`local.py:188-204`): for every platform and item of the saved snapshot,
query the stored rating (`get_news_importance`, given here as the oracle
`getImportance`, with `""` for an absent or empty rating) and keep exactly
the items whose stored rating is falsy. -/
def collectNewsToAnalyze (getImportance : String → String → String)
    (data : NewsData) : List NewsInput :=
  data.items.flatMap (fun pp =>
    pp.2.filterMap (fun it =>
      if getImportance it.title pp.1 = "" then
        some ⟨it.title, pp.1, lookupName data pp.1, it.rank⟩
      else none))

/-- The classification job submitted by one run: the gathered unrated
items, capped at `max_analyze_per_run` (`local.py:210-214`). -/
def newsToAnalyze (getImportance : String → String → String)
    (data : NewsData) : List NewsInput :=
  (collectNewsToAnalyze getImportance data).take max_analyze_per_run

/-- Result tuple of `_save_news_data_impl` (the SQLite mixin primitive the
backend delegates to at `local.py:142-143`), given as an oracle. -/
structure SaveImplResult where
  success : Bool
  newCount : Nat
  updatedCount : Nat
  titleChangedCount : Nat
  offListCount : Nat

/-- How the enrichment/notification worker thread terminates. -/
inductive WorkerRun where
  | returnedNormally
  | propagated (msg : String)
  deriving DecidableEq, Repr

/-- `analyze_in_background` (`local.py:178-335`): the whole body runs
under `try`, and the `except Exception` at line 332 catches every raised
exception and logs it, so the worker always returns normally. -/
def analyze_in_background (body : Except String Unit) : WorkerRun :=
  match body with
  | .ok _ => .returnedNormally
  | .error _ => .returnedNormally

/-- `save_news_data` (`local.py:135-159`): the returned value is the
`success` component of the persistence primitive; when it is true the
enrichment worker is started on a daemon thread (`local.py:337-339`) whose
outcome the caller never observes. -/
def save_news_data (impl : SaveImplResult) (enrichment : Except String Unit) :
    Bool :=
  if impl.success then
    let _worker := analyze_in_background enrichment
    impl.success
  else impl.success

/-- One entry of the `important_news` list built at `local.py:251-258`. -/
structure ImportantNews where
  title : String
  platform_id : String
  platform_name : String
  rank : Nat
  importance : String
  url : String
  deriving DecidableEq, Repr

/-- The detail lookup at `local.py:246-249`: first item of the platform's
list with exactly this title. -/
def findNewsItem (data : NewsData) (pid : String) (title : String) :
    Option NewsRecord :=
  (((data.items.find? (fun p => p.1 = pid)).map (·.2)).getD []).find?
    (fun it => it.title = title)

/-- Builds one `important_news` entry (`local.py:251-258`): `rank` and
`url` default to `0` / `""` when the item is not found in the snapshot. -/
def mkImportantNews (data : NewsData) (title : String) (pid : String)
    (importance : String) : ImportantNews :=
  let newsItem := findNewsItem data pid title
  { title := title, platform_id := pid, platform_name := lookupName data pid,
    rank := (newsItem.map (·.rank)).getD 0, importance := importance,
    url := (newsItem.map (·.url)).getD "" }

/-- `importance in ["critical", "high"]` (`local.py:242`). -/
def isTopTwo (s : String) : Bool := s == "critical" || s == "high"

/-- One iteration of the persistence-and-collection loop over
`batch_results.items()` (`local.py:231-258`): when the rating upsert
(`update_news_importance`, the oracle `updateOk`) succeeds, bump
`saved_count`, and collect an `important_news` entry when the rating is
critical or high. -/
def collectStep (updateOk : String → String → String → Bool)
    (data : NewsData) (acc : Nat × List ImportantNews)
    (kv : (String × String) × String) : Nat × List ImportantNews :=
  if updateOk kv.1.1 kv.1.2 kv.2 then
    if isTopTwo kv.2 then
      (acc.1 + 1, acc.2 ++ [mkImportantNews data kv.1.1 kv.1.2 kv.2])
    else (acc.1 + 1, acc.2)
  else acc

/-- The whole persistence-and-collection loop (`local.py:228-258`). -/
def collectImportant (updateOk : String → String → String → Bool)
    (data : NewsData) (batchResults : List ((String × String) × String)) :
    Nat × List ImportantNews :=
  batchResults.foldl (collectStep updateOk data) (0, [])

/-- Environment of the notification block (`local.py:262-330`):
whether `load_notification_config` returns (a raise is caught at line
327), whether the channel disjunction at lines 273-283 holds, the
per-channel outcome map `send_important_news_to_all_channels` would
return, and whether that sink call raises (also caught at line 327). -/
structure NotifyEnv where
  configLoads : Bool
  hasConfiguredChannels : Bool
  sinkOutcome : List (String × Bool)
  sinkRaises : Bool

/-- Observable outcome of the notification block: how many times the sink
was invoked, and the per-channel map reported when the call returned. -/
structure NotifyResult where
  sinkCalls : Nat
  reported : Option (List (String × Bool))
  deriving DecidableEq, Repr

/-- The notification block (`local.py:262-330`): runs only when
`important_news` is non-empty; skips the sink when the configuration
fails to load or configures no channel; otherwise invokes the sink
exactly once and reports its per-channel map (unless the call raises,
which is caught). -/
def notifyImportantNews (env : NotifyEnv)
    (importantNews : List ImportantNews) : NotifyResult :=
  if importantNews = [] then ⟨0, none⟩
  else if !env.configLoads then ⟨0, none⟩
  else if !env.hasConfiguredChannels then ⟨0, none⟩
  else if env.sinkRaises then ⟨1, none⟩
  else ⟨1, some env.sinkOutcome⟩

/-- The post-classification phase of one enrichment run
(`local.py:227-330`): persist-and-collect, then notify. -/
def importanceWorkerRun (updateOk : String → String → String → Bool)
    (data : NewsData) (batchResults : List ((String × String) × String))
    (env : NotifyEnv) : (Nat × List ImportantNews) × NotifyResult :=
  let c := collectImportant updateOk data batchResults
  (c, notifyImportantNews env c.2)

/-! ## The LLM client retry loop (`app/ai/llm_client.py:204-267`) -/

/-- What one `requests.post` attempt does, as seen by the retry loop:
a 2xx response with a well-formed payload, a 2xx response whose JSON/shape
extraction raises (line 215-216, not caught by the loop), a timeout, a
connection error, or an HTTP error status (with or without an attached
response object). -/
inductive AttemptOutcome where
  | success (body : String)
  | badPayload
  | timeout
  | connError
  | httpError (status : Nat)
  | httpErrorNoResponse
  deriving DecidableEq, Repr

/-- The typed errors of `llm_client.py:51-73`. -/
inductive LLMError where
  | timeoutErr
  | connectionErr
  | httpErr (status : Option Nat)
  deriving DecidableEq, Repr

/-- How a `_chat_openai_compatible` call can fail: with a typed
`LLMClientError`, or with an exception the loop does not catch (a bad
payload on a 2xx response). -/
inductive ChatFailure where
  | llm (e : LLMError)
  | uncaught
  deriving DecidableEq, Repr

/-- `max_retries = 3` (`llm_client.py:204`). -/
def max_retries : Nat := 3

/-- `retry_delay = 3` (`llm_client.py:205`). -/
def retry_delay : Nat := 3

/-- `status_code in [502, 503, 504]` (`llm_client.py:238`). -/
def isTransientStatus (s : Nat) : Bool := s == 502 || s == 503 || s == 504

/-- Equality of `Except` values is decidable (needed to evaluate witness
statements on concrete runs). -/
def exceptEqDec {ε α : Type} [DecidableEq ε] [DecidableEq α] :
    (x y : Except ε α) → Decidable (x = y)
  | .ok a, .ok b =>
    if h : a = b then .isTrue (by simp [h]) else .isFalse (by simp [h])
  | .ok _, .error _ => .isFalse (by simp)
  | .error _, .ok _ => .isFalse (by simp)
  | .error e, .error f =>
    if h : e = f then .isTrue (by simp [h]) else .isFalse (by simp [h])

instance {ε α : Type} [DecidableEq ε] [DecidableEq α] :
    DecidableEq (Except ε α) := exceptEqDec

/-- Observable result of one `_chat_openai_compatible` call: the value or
typed failure, the number of `requests.post` attempts made, and the
`time.sleep` durations between attempts. -/
structure ChatRun where
  result : Except ChatFailure String
  attempts : Nat
  waits : List Nat
  deriving DecidableEq, Repr

/-- The retry loop body from attempt `a` with `r` retries still allowed
(the source's `attempt < max_retries` test is `r > 0` here, with
`r = max_retries - a`): timeouts, connection errors and 502/503/504 are
retried after `retry_delay * (attempt + 1)` seconds; any other HTTP error
raises `LLMHTTPError` at once (`llm_client.py:206-265`). -/
def chatGo (env : Nat → AttemptOutcome) (a : Nat) : Nat → ChatRun
  | 0 =>
    match env a with
    | .success b => ⟨.ok b, 1, []⟩
    | .badPayload => ⟨.error .uncaught, 1, []⟩
    | .timeout => ⟨.error (.llm .timeoutErr), 1, []⟩
    | .connError => ⟨.error (.llm .connectionErr), 1, []⟩
    | .httpError s => ⟨.error (.llm (.httpErr (some s))), 1, []⟩
    | .httpErrorNoResponse => ⟨.error (.llm (.httpErr none)), 1, []⟩
  | r + 1 =>
    match env a with
    | .success b => ⟨.ok b, 1, []⟩
    | .badPayload => ⟨.error .uncaught, 1, []⟩
    | .timeout =>
      let rest := chatGo env (a + 1) r
      ⟨rest.result, rest.attempts + 1, retry_delay * (a + 1) :: rest.waits⟩
    | .connError =>
      let rest := chatGo env (a + 1) r
      ⟨rest.result, rest.attempts + 1, retry_delay * (a + 1) :: rest.waits⟩
    | .httpError s =>
      if isTransientStatus s then
        let rest := chatGo env (a + 1) r
        ⟨rest.result, rest.attempts + 1, retry_delay * (a + 1) :: rest.waits⟩
      else ⟨.error (.llm (.httpErr (some s))), 1, []⟩
    | .httpErrorNoResponse => ⟨.error (.llm (.httpErr none)), 1, []⟩

/-- `_chat_openai_compatible`'s `for attempt in range(max_retries + 1)`
loop, given the per-attempt outcome oracle. -/
def chat_openai_compatible (env : Nat → AttemptOutcome) : ChatRun :=
  chatGo env 0 max_retries

/-- An attempt outcome the loop treats as transient. -/
def transientOutcome : AttemptOutcome → Bool
  | .timeout => true
  | .connError => true
  | .httpError s => isTransientStatus s
  | _ => false

/-! ## Retention cleanup (`app/storage/local.py:530-636`) -/

/-- Numeric value of an ASCII digit. -/
def digitVal (c : Char) : Nat := c.toNat - '0'.toNat

/-- The prefix match `re.match(r'(\d\x7b4\x7d)-(\d\x7b2\x7d)-(\d\x7b2\x7d)', name)`
(`local.py:558`): four digits, dash, two digits, dash, two digits, with
anything allowed after. -/
def parseYMDPrefix : List Char → Option (Nat × Nat × Nat)
  | a :: b :: c :: d :: '-' :: e :: f :: '-' :: g :: h :: _ =>
    if a.isDigit && b.isDigit && c.isDigit && d.isDigit && e.isDigit &&
        f.isDigit && g.isDigit && h.isDigit then
      some (1000 * digitVal a + 100 * digitVal b + 10 * digitVal c + digitVal d,
        10 * digitVal e + digitVal f, 10 * digitVal g + digitVal h)
    else none
  | _ => none

/-- The anchored match `re.match(r'(\d\x7b4\x7d)-(\d\x7b2\x7d)$', name)`
(`local.py:567`): exactly four digits, dash, two digits. -/
def parseYMExact : List Char → Option (Nat × Nat)
  | [a, b, c, d, '-', e, f] =>
    if a.isDigit && b.isDigit && c.isDigit && d.isDigit && e.isDigit &&
        f.isDigit then
      some (1000 * digitVal a + 100 * digitVal b + 10 * digitVal c + digitVal d,
        10 * digitVal e + digitVal f)
    else none
  | _ => none

/-- Gregorian leap year. -/
def isLeapYear (y : Nat) : Bool :=
  (y % 4 == 0 && y % 100 != 0) || y % 400 == 0

def daysInMonth (y m : Nat) : Nat :=
  if m = 2 then (if isLeapYear y then 29 else 28)
  else if m = 4 ∨ m = 6 ∨ m = 9 ∨ m = 11 then 30
  else 31

/-- The ranges `datetime(y, m, d)` accepts; outside them the constructor
raises `ValueError`, which `parse_date_from_name` catches. -/
def validYMD (y m d : Nat) : Bool :=
  1 ≤ y && y ≤ 9999 && 1 ≤ m && m ≤ 12 && 1 ≤ d && d ≤ daysInMonth y m

/-- Day serial number of a valid Gregorian date (monotone in the date):
the civil-calendar day-count computation, total on the validated range. -/
def daySerial (y m d : Nat) : Nat :=
  let y' := y - (if m ≤ 2 then 1 else 0)
  let mp := (m + 9) % 12
  let doy := (153 * mp + 2) / 5 + d - 1
  y' * 365 + y' / 4 - y' / 100 + y' / 400 + doy

/-- `name.replace('.db', '')` (`local.py:555`): drop every
non-overlapping occurrence of `.db`, scanning left to right. -/
def stripDotDb : List Char → List Char
  | '.' :: 'd' :: 'b' :: rest => stripDotDb rest
  | c :: rest => c :: stripDotDb rest
  | [] => []

/-- Python `name.startswith('.')` (`local.py:617`). -/
def nameStartsWithDot (name : String) : Bool :=
  match name.data with
  | c :: _ => c = '.'
  | [] => false

/-- `parse_date_from_name` (`local.py:552-578`): strip every `.db`
occurrence, try the day-precision prefix match, then the anchored month
match; a match whose numbers `datetime` rejects returns `None` (the
`except` at line 576). -/
def parse_date_from_name (name : String) : Option (Nat × Nat × Nat) :=
  let n := stripDotDb name.data
  match parseYMDPrefix n with
  | some (y, m, d) => if validYMD y m d then some (y, m, d) else none
  | none =>
    match parseYMExact n with
    | some (y, m) => if validYMD y m 1 then some (y, m, 1) else none
    | none => none

/-- The backend's current local time (`_get_configured_time()`), split
into its civil-date day serial and the second of that day.  Both the
parsed names and `now` are interpreted at one fixed UTC offset (the
model does not reproduce pytz's historical-offset minutiae). -/
structure LocalNow where
  day : Nat
  secOfDay : Nat

/-- `file_date < cutoff_date` where
`cutoff_date = now - timedelta(days=retention_days)` (`local.py:550,592`):
the parsed name's midnight is strictly before `now` minus the retention
window; an unparseable name is never deleted. -/
def shouldDeleteName (retentionDays : Int) (now : LocalNow) (name : String) :
    Bool :=
  match parse_date_from_name name with
  | some (y, m, d) =>
    decide ((daySerial y m d : Int) * 86400 <
      (now.day : Int) * 86400 + now.secOfDay - retentionDays * 86400)
  | none => false

/-- One entry of a snapshot directory listing (`txt/` or `html/`). -/
structure DirEntry where
  name : String
  isDir : Bool
  deriving DecidableEq, Repr

/-- The `output/` directory as the cleanup sees it: the `*.db` names
globbed under `news/` and `rss/`, and the entries listed under `txt/` and
`html/` (a missing subdirectory is the empty listing, which is what the
source's `continue` amounts to). -/
structure DataDirState where
  dataDirExists : Bool
  newsDbFiles : List String
  rssDbFiles : List String
  txtEntries : List DirEntry
  htmlEntries : List DirEntry

/-- The database-file loop body (`local.py:590-608`): delete and count
each file whose parsed date is past retention.  Deletions are modelled as
succeeding (the `except` at line 607 only skips the count on an OS
failure). -/
def cleanupDbFold (f : String → Bool) (names : List String)
    (acc : List String × Nat) : List String × Nat :=
  names.foldl
    (fun acc nm => if f nm then (acc.1 ++ [nm], acc.2 + 1) else acc) acc

/-- The snapshot-directory loop body (`local.py:616-627`): skip
non-directories and dot-names, delete and count the rest when past
retention. -/
def cleanupDirFold (f : String → Bool) (entries : List DirEntry)
    (acc : List String × Nat) : List String × Nat :=
  entries.foldl
    (fun acc e =>
      if e.isDir && !(nameStartsWithDot e.name) && f e.name then
        (acc.1 ++ [e.name], acc.2 + 1)
      else acc)
    acc

/-- `cleanup_old_data` (`local.py:530-636`): returns the names it removed
(whole month-partition database files and whole date directories — the
code has no row-level deletion path) and the returned counter. -/
def cleanup_old_data (st : DataDirState) (retentionDays : Int)
    (now : LocalNow) : List String × Nat :=
  if retentionDays ≤ 0 then ([], 0)
  else if !st.dataDirExists then ([], 0)
  else
    cleanupDirFold (shouldDeleteName retentionDays now) st.htmlEntries
      (cleanupDirFold (shouldDeleteName retentionDays now) st.txtEntries
        (cleanupDbFold (shouldDeleteName retentionDays now) st.rssDbFiles
          (cleanupDbFold (shouldDeleteName retentionDays now) st.newsDbFiles
            ([], 0))))

/-! ## Per-thread connection pooling (`app/storage/local.py:103-129`) -/

/-- One `sqlite3.Connection` as the pool sees it: which thread opened it,
for which database path, and whether `PRAGMA journal_mode=WAL` was run
on it (`local.py:125`, executed on creation before the handle is stored
or returned). -/
structure SqliteConn where
  owner : Nat
  path : String
  walEnabled : Bool
  deriving DecidableEq, Repr

/-- Pool state: every connection ever opened (its index is its handle),
and each thread's `threading.local()` dict from database path to handle
(`local.py:115-116`). -/
structure ConnPoolState where
  conns : List SqliteConn
  threadMap : Nat → List (String × Nat)

def initConnPool : ConnPoolState := ⟨[], fun _ => []⟩

/-- `_get_connection` (`local.py:103-129`) run by thread `t` for database
path `path`: return the thread's cached handle, or open a new connection
(WAL enabled at creation) and cache it in this thread's dict only. -/
def getConnection (st : ConnPoolState) (t : Nat) (path : String) :
    Nat × ConnPoolState :=
  match (st.threadMap t).find? (fun p => p.1 = path) with
  | some p => (p.2, st)
  | none =>
    let cid := st.conns.length
    (cid,
      { conns := st.conns ++ [⟨t, path, true⟩],
        threadMap := fun t' =>
          if t' = t then st.threadMap t' ++ [(path, cid)] else st.threadMap t' })

/-- A sequence of `_get_connection` requests `(thread, path)`, returning
the final pool state and, per request, the requesting thread and the
handle it received. -/
def runConnRequests : ConnPoolState → List (Nat × String) →
    ConnPoolState × List (Nat × Nat)
  | st, [] => (st, [])
  | st, (t, p) :: rest =>
    ((runConnRequests (getConnection st t p).2 rest).1,
      (t, (getConnection st t p).1) ::
        (runConnRequests (getConnection st t p).2 rest).2)

/-! ## Reads on an absent partition (`app/storage/local.py:341-371`) -/

/-- The filesystem as the read guards see it. -/
structure PartitionFS where
  fileExists : String → Bool

/-- The SQLite-mixin read primitives the guarded methods delegate to,
as oracles that may raise a storage error. -/
structure ReadImpls where
  todayAllImpl : Except String (Option NewsData)
  latestImpl : Except String (Option NewsData)
  crawlTimesImpl : Except String (List Nat)
  isFirstImpl : Except String Bool

/-- `format_date_folder` (`app/utils/time.py:33-51`): the first seven
characters of a provided date string (its `YYYY-MM` month), or the
current month when none is given. -/
def format_date_folder (nowMonth : String) (date : Option String) : String :=
  match date with
  | some d => if d.length ≥ 7 then (d.toList.take 7).asString else d
  | none => nowMonth

/-- `_get_db_path` (`local.py:83-101`): `output/{type}/{YYYY-MM}.db`.
(The method also creates the *directory*; it never creates the `.db`
file itself.) -/
def dbPath (dataDir : String) (nowMonth : String) (date : Option String)
    (dbType : String) : String :=
  dataDir ++ "/" ++ dbType ++ "/" ++ format_date_folder nowMonth date ++ ".db"

/-- `get_today_all_data` (`local.py:341-346`); the boolean records whether
the mixin read (the code path that opens the database) was entered. -/
def get_today_all_data (fs : PartitionFS) (impls : ReadImpls)
    (dataDir nowMonth : String) (date : Option String) :
    Except String (Option NewsData) × Bool :=
  if fs.fileExists (dbPath dataDir nowMonth date "news") then
    (impls.todayAllImpl, true)
  else (.ok none, false)

/-- `get_latest_crawl_data` (`local.py:348-353`). -/
def get_latest_crawl_data (fs : PartitionFS) (impls : ReadImpls)
    (dataDir nowMonth : String) (date : Option String) :
    Except String (Option NewsData) × Bool :=
  if fs.fileExists (dbPath dataDir nowMonth date "news") then
    (impls.latestImpl, true)
  else (.ok none, false)

/-- `get_crawl_times` (`local.py:366-371`). -/
def get_crawl_times (fs : PartitionFS) (impls : ReadImpls)
    (dataDir nowMonth : String) (date : Option String) :
    Except String (List Nat) × Bool :=
  if fs.fileExists (dbPath dataDir nowMonth date "news") then
    (impls.crawlTimesImpl, true)
  else (.ok [], false)

/-- `is_first_crawl_today` (`local.py:359-364`). -/
def is_first_crawl_today (fs : PartitionFS) (impls : ReadImpls)
    (dataDir nowMonth : String) (date : Option String) :
    Except String Bool × Bool :=
  if fs.fileExists (dbPath dataDir nowMonth date "news") then
    (impls.isFirstImpl, true)
  else (.ok true, false)

/-! ## Basic lemmas about the results dict -/

theorem mem_setResult (m : List ((String × String) × String))
    (k : String × String) (v : String) (p : (String × String) × String)
    (hp : p ∈ setResult m k v) : p = (k, v) ∨ p ∈ m := by
  unfold setResult at hp
  split at hp
  · rw [List.mem_map] at hp
    obtain ⟨q, hq, hqe⟩ := hp
    by_cases hk : q.1 = k
    · rw [if_pos hk] at hqe
      exact Or.inl hqe.symm
    · rw [if_neg hk] at hqe
      exact Or.inr (hqe ▸ hq)
  · rw [List.mem_append, List.mem_singleton] at hp
    exact hp.symm.imp id id

/-- The overwrite map of `setResult` does not change whether an entry's
key matches `k'`, for any probe key. -/
theorem overwrite_pred (k k' : String × String) (v : String)
    (p : (String × String) × String) :
    (decide ((if p.1 = k then (k, v) else p).1 = k')) = decide (p.1 = k') := by
  by_cases hp : p.1 = k
  · rw [if_pos hp, hp]
  · rw [if_neg hp]

theorem findRating_setResult_self (m : List ((String × String) × String))
    (k : String × String) (v : String) :
    findRating (setResult m k v) k = some v := by
  unfold setResult findRating
  split
  · rename_i h
    rw [List.find?_map]
    have hpred : ((fun p : (String × String) × String => decide (p.1 = k)) ∘
        (fun p => if p.1 = k then (k, v) else p)) =
        (fun p : (String × String) × String => decide (p.1 = k)) := by
      funext p
      exact overwrite_pred k k v p
    rw [hpred]
    rw [List.any_eq_true] at h
    obtain ⟨q, hq, hqk⟩ := h
    have hsome : (m.find? (fun p => decide (p.1 = k))).isSome := by
      rw [List.find?_isSome]
      exact ⟨q, hq, hqk⟩
    obtain ⟨r, hr⟩ := Option.isSome_iff_exists.mp hsome
    have hrk : r.1 = k := by simpa using List.find?_some hr
    rw [hr]
    simp [hrk]
  · rename_i h
    rw [List.find?_append]
    have hnone : m.find? (fun p => decide (p.1 = k)) = none := by
      rw [List.find?_eq_none]
      intro p hp
      simp only [Bool.not_eq_true] at h ⊢
      rw [List.any_eq_false] at h
      simpa using h p hp
    rw [hnone]
    simp

theorem findRating_setResult_ne (m : List ((String × String) × String))
    (k k' : String × String) (v : String) (hne : k' ≠ k) :
    findRating (setResult m k v) k' = findRating m k' := by
  unfold setResult findRating
  split
  · rw [List.find?_map]
    have hpred : ((fun p : (String × String) × String => decide (p.1 = k')) ∘
        (fun p => if p.1 = k then (k, v) else p)) =
        (fun p : (String × String) × String => decide (p.1 = k')) := by
      funext p
      exact overwrite_pred k k' v p
    rw [hpred]
    cases hf : m.find? (fun p => decide (p.1 = k')) with
    | none => rfl
    | some r =>
      have hrk : r.1 = k' := by simpa using List.find?_some hf
      have hrnk : ¬(r.1 = k) := fun hc => hne (hrk ▸ hc ▸ rfl)
      simp [hrnk]
  · rw [List.find?_append]
    have hkk : ¬(k = k') := fun hc => hne hc.symm
    have hlast : List.find? (fun p => decide (p.1 = k')) [(k, v)] = none := by
      simp [hkk]
    rw [hlast]
    cases m.find? (fun p => decide (p.1 = k')) <;> rfl

/-! ## C1: already-rated items are excluded from the classification job -/

/-- C1: at-most-once rating per item — every item gathered by the
importance pipeline after a save (`newsToAnalyze`, the gathering loop and
cap of `_analyze_news_importance_async`) has an empty stored importance
rating, so re-running the pipeline over the same data never submits an
already-rated item again. -/
theorem submitted_items_have_empty_stored_rating
    (getImportance : String → String → String) (data : NewsData) :
    ∀ e ∈ newsToAnalyze getImportance data,
      getImportance e.title e.platform_id = "" := by
  intro e he
  have he' : e ∈ collectNewsToAnalyze getImportance data :=
    List.mem_of_mem_take he
  simp only [collectNewsToAnalyze, List.mem_flatMap, List.mem_filterMap] at he'
  obtain ⟨pp, _, it, _, hit⟩ := he'
  by_cases h : getImportance it.title pp.1 = ""
  · rw [if_pos h, Option.some_inj] at hit
    rw [← hit]
    exact h
  · rw [if_neg h] at hit
    exact absurd hit (by simp)

/-- Witness for C1 at a concrete store and snapshot: the store rates "R"
and not "N"; only the unrated "N" item is gathered. -/
theorem submitted_items_have_empty_stored_rating_witness :
    (⟨"N", "p", "p", 2⟩ : NewsInput) ∈
        newsToAnalyze (fun t _ => if t = "R" then "high" else "")
          ⟨"2025-10-12", [("p", [⟨"R", 1, "u"⟩, ⟨"N", 2, "u"⟩])], []⟩ ∧
      (fun (t : String) (_ : String) => if t = "R" then "high" else "") "N" "p"
        = "" :=
  ⟨by decide,
    submitted_items_have_empty_stored_rating
      (fun t _ => if t = "R" then "high" else "")
      ⟨"2025-10-12", [("p", [⟨"R", 1, "u"⟩, ⟨"N", 2, "u"⟩])], []⟩
      ⟨"N", "p", "p", 2⟩ (by decide)⟩

/-! ## C4: a save never fails because enrichment failed -/

/-- C4: the value `save_news_data` returns is exactly the persistence
primitive's success flag — it is fixed before the enrichment worker is
started, is the same whatever the enrichment body does, and the worker
itself catches every exception and returns normally. -/
theorem save_independent_of_enrichment (impl : SaveImplResult)
    (e₁ e₂ : Except String Unit) :
    save_news_data impl e₁ = impl.success ∧
      save_news_data impl e₁ = save_news_data impl e₂ ∧
      analyze_in_background e₁ = WorkerRun.returnedNormally := by
  refine ⟨?_, ?_, ?_⟩
  · unfold save_news_data
    split <;> rfl
  · unfold save_news_data
    split <;> rfl
  · cases e₁ <;> rfl

/-! ## C10: reads on an absent partition are total and empty -/

/-- C10: when the month-partition database file does not exist, the four
guarded reads return `None` / `None` / `[]` / `True` without entering the
SQLite read path (so nothing can raise and the partition file is not
created), whatever the underlying read primitives would have done. -/
theorem absent_partition_reads_total (fs : PartitionFS) (impls : ReadImpls)
    (dataDir nowMonth : String) (date : Option String)
    (h : fs.fileExists (dbPath dataDir nowMonth date "news") = false) :
    get_today_all_data fs impls dataDir nowMonth date = (.ok none, false) ∧
      get_latest_crawl_data fs impls dataDir nowMonth date = (.ok none, false) ∧
      get_crawl_times fs impls dataDir nowMonth date = (.ok [], false) ∧
      is_first_crawl_today fs impls dataDir nowMonth date = (.ok true, false) := by
  unfold get_today_all_data get_latest_crawl_data get_crawl_times
    is_first_crawl_today
  rw [h]
  exact ⟨rfl, rfl, rfl, rfl⟩

/-- Witness for C10 on a concrete empty filesystem with read primitives
that would all raise a storage error if entered. -/
theorem absent_partition_reads_total_witness :
    (PartitionFS.fileExists ⟨fun _ => false⟩
        (dbPath "output" "2025-10" (some "2025-10-12") "news") = false) ∧
      get_today_all_data ⟨fun _ => false⟩
        ⟨.error "boom", .error "boom", .error "boom", .error "boom"⟩
        "output" "2025-10" (some "2025-10-12") = (.ok none, false) :=
  ⟨rfl,
    (absent_partition_reads_total ⟨fun _ => false⟩
      ⟨.error "boom", .error "boom", .error "boom", .error "boom"⟩
      "output" "2025-10" (some "2025-10-12") rfl).1⟩

/-! ## Invariant: where batch results come from -/

theorem mem_of_mem_chunksGo {α : Type} (bs : Nat) :
    ∀ (fuel : Nat) (l : List α) (c : List α),
      c ∈ chunksGo bs fuel l → ∀ x ∈ c, x ∈ l := by
  intro fuel
  induction fuel with
  | zero =>
    intro l c hc
    cases l with
    | nil => exact absurd hc (by simp [chunksGo])
    | cons a as => exact absurd hc (by simp [chunksGo])
  | succ f ih =>
    intro l c hc
    cases l with
    | nil => exact absurd hc (by simp [chunksGo])
    | cons a as =>
      rw [chunksGo] at hc
      rcases List.mem_cons.mp hc with rfl | hc'
      · exact fun x hx => List.take_subset _ _ hx
      · intro x hx
        have hx' := ih (as.drop (bs - 1)) c hc' x hx
        exact List.mem_cons_of_mem a (List.drop_subset _ as hx')

theorem mem_of_mem_chunks {α : Type} (bs : Nat) (l : List α) (c : List α)
    (hc : c ∈ chunks bs l) : ∀ x ∈ c, x ∈ l :=
  mem_of_mem_chunksGo bs l.length l c hc

/-- A results-dict key that names one of the run's input items. -/
def KeyFromItems (items : List NewsInput) (k : String × String) : Prop :=
  ∃ it ∈ items, k = (it.title, it.platform_id)

/-- Every binding of the results dict keys an input item and carries a
vocabulary rating. -/
def ResOK (items : List NewsInput)
    (m : List ((String × String) × String)) : Prop :=
  ∀ kv ∈ m, KeyFromItems items kv.1 ∧ isValidRating kv.2 = true

theorem resOK_setResult {items : List NewsInput}
    {m : List ((String × String) × String)} {k : String × String} {v : String}
    (hm : ResOK items m) (hk : KeyFromItems items k)
    (hv : isValidRating v = true) : ResOK items (setResult m k v) := by
  intro kv hkv
  rcases mem_setResult m k v kv hkv with rfl | h
  · exact ⟨hk, hv⟩
  · exact hm kv h

theorem resOK_processResultsList (items : List NewsInput)
    (keys : List (String × String))
    (hkeys : ∀ k ∈ keys, KeyFromItems items k) :
    ∀ (xs : List Json) (acc : List ((String × String) × String)),
      ResOK items acc → ResOK items (processResultsList keys xs acc).1 := by
  intro xs
  induction xs with
  | nil => intro acc hacc; exact hacc
  | cons r rest ih =>
    intro acc hacc
    cases r with
    | obj fields =>
      rw [processResultsList]
      split
      · rename_i s himp
        apply ih
        split
        · split
          · rename_i k hfind
            exact resOK_setResult hacc (hkeys k (List.mem_of_find?_eq_some hfind))
              (by assumption)
          · exact hacc
        · exact hacc
      · exact hacc
    | null => exact hacc
    | bool b => exact hacc
    | num n => exact hacc
    | str s => exact hacc
    | arr ys => exact hacc

theorem resOK_compatAssign (items : List NewsInput)
    (fields : List (String × Json)) :
    ∀ (keys : List (String × String)) (acc : List ((String × String) × String)),
      (∀ k ∈ keys, KeyFromItems items k) → ResOK items acc →
      ResOK items (compatAssign fields keys acc) := by
  intro keys
  induction keys with
  | nil => intro acc _ hacc; exact hacc
  | cons k ks ih =>
    intro acc hkeys hacc
    simp only [compatAssign, List.foldl_cons] at ih ⊢
    apply ih _ (fun q hq => hkeys q (List.mem_cons_of_mem k hq))
    rw [compatStep]
    split
    · split
      · exact resOK_setResult hacc (hkeys k (List.mem_cons_self k ks))
          (by assumption)
      · exact hacc
    · exact hacc

theorem resOK_processBatchJson (items : List NewsInput) (j : Json)
    (keys : List (String × String)) (acc : List ((String × String) × String))
    (hkeys : ∀ k ∈ keys, KeyFromItems items k) (hacc : ResOK items acc) :
    ResOK items (processBatchJson j keys acc).1 := by
  cases j with
  | obj fields =>
    rw [processBatchJson]
    cases hr : jsonLookup fields "results" with
    | none => exact resOK_compatAssign items fields keys acc hkeys hacc
    | some v =>
      cases v with
      | arr xs => exact resOK_processResultsList items keys hkeys xs acc hacc
      | null => exact resOK_compatAssign items fields keys acc hkeys hacc
      | bool b => exact resOK_compatAssign items fields keys acc hkeys hacc
      | num n => exact resOK_compatAssign items fields keys acc hkeys hacc
      | str s => exact resOK_compatAssign items fields keys acc hkeys hacc
      | obj fs => exact resOK_compatAssign items fields keys acc hkeys hacc
  | arr xs =>
    rw [processBatchJson]
    split <;> exact hacc
  | str s =>
    rw [processBatchJson]
    split <;> exact hacc
  | null => exact hacc
  | bool b => exact hacc
  | num n => exact hacc

theorem resOK_fallbackStep (items : List NewsInput) (env : ClassifierEnv)
    (st : RunState) (it : NewsInput) (hit : it ∈ items)
    (hacc : ResOK items st.results) :
    ResOK items (fallbackStep env st it).results := by
  rw [fallbackStep]
  by_cases hok : itemOk it
  · rw [if_pos hok]
    by_cases hv :
      analyze_news_importance true (env.singleResponse st.singleCount) ≠ ""
    · simp only [if_pos hv]
      rcases analyze_single_mem_vocab true (env.singleResponse st.singleCount)
        with he | hvalid
      · exact absurd he hv
      · exact resOK_setResult hacc ⟨it, hit, rfl⟩ hvalid
    · simp only [if_neg hv]
      exact hacc
  · rw [if_neg hok]
    exact hacc

theorem resOK_runFallback (items : List NewsInput) (env : ClassifierEnv) :
    ∀ (batch : List NewsInput) (st : RunState),
      (∀ it ∈ batch, it ∈ items) → ResOK items st.results →
      ResOK items (runFallback env st batch).results := by
  intro batch
  induction batch with
  | nil => intro st _ hacc; exact hacc
  | cons it rest ih =>
    intro st hbatch hacc
    simp only [runFallback, List.foldl_cons] at ih ⊢
    exact ih (fallbackStep env st it)
      (fun q hq => hbatch q (List.mem_cons_of_mem it hq))
      (resOK_fallbackStep items env st it (hbatch it (List.mem_cons_self it rest))
        hacc)

theorem resOK_processChunk (items : List NewsInput) (env : ClassifierEnv)
    (i : Nat) (st : RunState) (batch : List NewsInput)
    (hbatch : ∀ it ∈ batch, it ∈ items) (hacc : ResOK items st.results) :
    ResOK items (processChunk env i st batch).results := by
  rw [processChunk]
  have hkeys : ∀ k ∈ batchKeys batch, KeyFromItems items k := by
    intro k hk
    rw [batchKeys, List.mem_map] at hk
    obtain ⟨it, hit, rfl⟩ := hk
    exact ⟨it, hbatch it (List.mem_of_mem_filter hit), rfl⟩
  have hpre : ResOK items (chunkPre i st).results := by
    rw [chunkPre]
    split <;> exact hacc
  split
  · exact hpre
  · cases henv : env.batchResponse i with
    | exn =>
      simp only [chunkDispatch, henv]
      exact resOK_runFallback items env batch _ hbatch hpre
    | malformed =>
      simp only [chunkDispatch, henv]
      exact resOK_runFallback items env batch _ hbatch hpre
    | ok j =>
      simp only [chunkDispatch, henv]
      have hres := resOK_processBatchJson items j (batchKeys batch)
        (chunkCalled (chunkPre i st) batch).results hkeys hpre
      split
      · rename_i res heq
        rw [heq] at hres
        exact resOK_runFallback items env batch _ hbatch hres
      · rename_i res heq
        rw [heq] at hres
        exact hres

theorem resOK_runBatches (items : List NewsInput) (env : ClassifierEnv) :
    ∀ (bl : List (List NewsInput)) (i : Nat) (st : RunState),
      (∀ b ∈ bl, ∀ it ∈ b, it ∈ items) → ResOK items st.results →
      ResOK items (runBatches env i st bl).results := by
  intro bl
  induction bl with
  | nil => intro i st _ hacc; exact hacc
  | cons b rest ih =>
    intro i st hbl hacc
    rw [runBatches]
    exact ih (i + 1) _ (fun c hc => hbl c (List.mem_cons_of_mem b hc))
      (resOK_processChunk items env i st b (hbl b (List.mem_cons_self b rest))
        hacc)

/-- Master invariant of `batch_analyze_importance`: every binding of the
returned mapping keys one of the requested input items with a rating from
the closed vocabulary. -/
theorem run_results_spec (hasApiKey : Bool) (env : ClassifierEnv)
    (items : List NewsInput) (bs : Nat) :
    ResOK items (batch_analyze_importance hasApiKey env items bs).results := by
  rw [batch_analyze_importance]
  split
  · intro kv hkv; exact absurd hkv (by simp)
  · split
    · intro kv hkv; exact absurd hkv (by simp)
    · exact resOK_runBatches items env (chunks bs items) 0 ⟨[], 0, []⟩
        (fun b hb it hit => mem_of_mem_chunks bs items b hb it hit)
        (fun kv hkv => absurd hkv (by simp))

/-! ## C5: closed rating vocabulary -/

/-- C5: every value of the mapping `batch_analyze_importance` returns is
one of critical/high/medium/low, and `analyze_news_importance` returns
either such a value or the empty string — a rating outside the vocabulary
is never stored. -/
theorem ratings_closed_vocabulary (hasApiKey : Bool) (env : ClassifierEnv)
    (items : List NewsInput) (bs : Nat) :
    ((batch_analyze_importance hasApiKey env items bs).results.all
        (fun kv => isValidRating kv.2)) = true ∧
      ∀ (hk : Bool) (resp : CallOutcome),
        analyze_news_importance hk resp = "" ∨
          isValidRating (analyze_news_importance hk resp) = true := by
  constructor
  · rw [List.all_eq_true]
    intro kv hkv
    exact (run_results_spec hasApiKey env items bs kv hkv).2
  · exact analyze_single_mem_vocab

/-! ## C3: remote-call retry policy -/

theorem range_map_succ (g : Nat → Nat) (r : Nat) :
    (List.range (r + 1)).map g = g 0 :: (List.range r).map (fun i => g (i + 1)) := by
  rw [List.range_succ_eq_map, List.map_cons, List.map_map]
  rfl

/-- All-transient runs of the retry loop: starting at attempt `a` with
`r` retries allowed, the loop makes `r + 1` attempts, sleeps the
increasing backoff schedule, and ends in a typed LLM error. -/
theorem chatGo_transient (env : Nat → AttemptOutcome) :
    ∀ (r a : Nat), (∀ k, a ≤ k → k ≤ a + r → transientOutcome (env k) = true) →
      (chatGo env a r).attempts = r + 1 ∧
      (chatGo env a r).waits =
        (List.range r).map (fun i => retry_delay * (a + 1 + i)) ∧
      ∃ e, (chatGo env a r).result = Except.error (.llm e) := by
  intro r
  induction r with
  | zero =>
    intro a h
    have ha : transientOutcome (env a) = true := h a le_rfl (by omega)
    cases henv : env a with
    | timeout =>
      rw [chatGo, henv]
      exact ⟨rfl, by simp, ⟨.timeoutErr, rfl⟩⟩
    | connError =>
      rw [chatGo, henv]
      exact ⟨rfl, by simp, ⟨.connectionErr, rfl⟩⟩
    | httpError s =>
      rw [chatGo, henv]
      exact ⟨rfl, by simp, ⟨.httpErr (some s), rfl⟩⟩
    | success b => rw [henv] at ha; simp [transientOutcome] at ha
    | badPayload => rw [henv] at ha; simp [transientOutcome] at ha
    | httpErrorNoResponse => rw [henv] at ha; simp [transientOutcome] at ha
  | succ r ih =>
    intro a h
    have ha : transientOutcome (env a) = true := h a le_rfl (by omega)
    have hrec := ih (a + 1) (fun k hk1 hk2 => h k (by omega) (by omega))
    have harith : (fun i => retry_delay * (a + 1 + 1 + i)) =
        (fun i => retry_delay * (a + 1 + (i + 1))) := by
      funext i
      congr 1
      omega
    have hw : retry_delay * (a + 1) :: (chatGo env (a + 1) r).waits =
        (List.range (r + 1)).map (fun i => retry_delay * (a + 1 + i)) := by
      rw [hrec.2.1, harith, range_map_succ (fun i => retry_delay * (a + 1 + i)) r]
    have hat : (chatGo env (a + 1) r).attempts + 1 = r + 1 + 1 := by
      rw [hrec.1]
    cases henv : env a with
    | timeout =>
      rw [chatGo, henv]
      exact ⟨hat, hw, hrec.2.2⟩
    | connError =>
      rw [chatGo, henv]
      exact ⟨hat, hw, hrec.2.2⟩
    | httpError s =>
      have hts : isTransientStatus s = true := by
        rw [henv] at ha
        exact ha
      rw [chatGo, henv]
      simp only [hts, if_true]
      exact ⟨hat, hw, hrec.2.2⟩
    | success b => rw [henv] at ha; simp [transientOutcome] at ha
    | badPayload => rw [henv] at ha; simp [transientOutcome] at ha
    | httpErrorNoResponse => rw [henv] at ha; simp [transientOutcome] at ha

/-- C3: transient outcomes (timeout, connection failure, HTTP
502/503/504) on every attempt make `_chat_openai_compatible` try
`max_retries + 1 = 4` times with increasing backoff sleeps `[3, 6, 9]`
before raising a typed LLM error, while a 4xx status fails on its first
occurrence with no retry and no sleep. -/
theorem llm_retry_policy (env : Nat → AttemptOutcome) :
    ((∀ a, a ≤ max_retries → transientOutcome (env a) = true) →
      (chat_openai_compatible env).attempts = max_retries + 1 ∧
      (chat_openai_compatible env).waits = [3, 6, 9] ∧
      ∃ e, (chat_openai_compatible env).result = Except.error (.llm e)) ∧
    ∀ s : Nat, 400 ≤ s → s < 500 → env 0 = .httpError s →
      chat_openai_compatible env =
        ⟨Except.error (.llm (.httpErr (some s))), 1, []⟩ := by
  constructor
  · intro h
    have hgo := chatGo_transient env max_retries 0
      (fun k _ hk2 => h k (by omega))
    refine ⟨hgo.1, ?_, hgo.2.2⟩
    have hw : (chat_openai_compatible env).waits =
        (List.range max_retries).map (fun i => retry_delay * (0 + 1 + i)) :=
      hgo.2.1
    rw [hw]
    rfl
  · intro s h4 h5 henv
    have hts : isTransientStatus s = false := by
      simp only [isTransientStatus, Bool.or_eq_false_iff, beq_eq_false_iff_ne]
      omega
    show chatGo env 0 (2 + 1) = _
    rw [chatGo, henv]
    simp [hts]

/-- Witness for C3: an always-timing-out classifier is retried three
times with backoff `[3, 6, 9]`; a 404 fails immediately without retry. -/
theorem llm_retry_policy_witness :
    ((∀ a, a ≤ max_retries →
        transientOutcome ((fun _ => AttemptOutcome.timeout) a) = true) ∧
      (chat_openai_compatible (fun _ => AttemptOutcome.timeout)).waits =
        [3, 6, 9]) ∧
      (400 ≤ 404 ∧ 404 < 500 ∧
        (fun _ => AttemptOutcome.httpError 404) 0 = .httpError 404 ∧
        chat_openai_compatible (fun _ => AttemptOutcome.httpError 404) =
          ⟨Except.error (.llm (.httpErr (some 404))), 1, []⟩) :=
  ⟨⟨fun _ _ => rfl,
      ((llm_retry_policy (fun _ => AttemptOutcome.timeout)).1
        (fun _ _ => rfl)).2.1⟩,
    by decide, by decide, rfl,
    (llm_retry_policy (fun _ => AttemptOutcome.httpError 404)).2 404
      (by decide) (by decide) rfl⟩

/-! ## C7: whole-partition retention -/

theorem cleanupDbFold_spec (f : String → Bool) :
    ∀ (names : List String) (acc : List String × Nat),
      cleanupDbFold f names acc =
        (acc.1 ++ names.filter f, acc.2 + (names.filter f).length) := by
  intro names
  induction names with
  | nil => intro acc; simp [cleanupDbFold]
  | cons nm rest ih =>
    intro acc
    simp only [cleanupDbFold, List.foldl_cons] at ih ⊢
    by_cases h : f nm = true
    · rw [if_pos h, ih, List.filter_cons_of_pos h]
      simp only [Prod.mk.injEq, List.length_cons]
      exact ⟨by simp, by omega⟩
    · rw [if_neg h, ih, List.filter_cons_of_neg (by simpa using h)]

theorem cleanupDirFold_spec (f : String → Bool) :
    ∀ (entries : List DirEntry) (acc : List String × Nat),
      cleanupDirFold f entries acc =
        (acc.1 ++ ((entries.filter (fun e =>
            e.isDir && !(nameStartsWithDot e.name) && f e.name)).map (·.name)),
          acc.2 + (entries.filter (fun e =>
            e.isDir && !(nameStartsWithDot e.name) && f e.name)).length) := by
  intro entries
  induction entries with
  | nil => intro acc; simp [cleanupDirFold]
  | cons e rest ih =>
    intro acc
    simp only [cleanupDirFold, List.foldl_cons] at ih ⊢
    by_cases h : (e.isDir && !(nameStartsWithDot e.name) && f e.name) = true
    · have hf : List.filter
          (fun e => e.isDir && !(nameStartsWithDot e.name) && f e.name)
          (e :: rest) =
          e :: List.filter
            (fun e => e.isDir && !(nameStartsWithDot e.name) && f e.name)
            rest :=
        List.filter_cons_of_pos h
      rw [if_pos h, ih, hf]
      simp only [Prod.mk.injEq, List.length_cons, List.map_cons]
      exact ⟨by simp, by omega⟩
    · have hf : List.filter
          (fun e => e.isDir && !(nameStartsWithDot e.name) && f e.name)
          (e :: rest) =
          List.filter
            (fun e => e.isDir && !(nameStartsWithDot e.name) && f e.name)
            rest :=
        List.filter_cons_of_neg (by simpa using h)
      rw [if_neg h, ih, hf]

theorem shouldDelete_parse (r : Int) (now : LocalNow) (nm : String)
    (h : shouldDeleteName r now nm = true) :
    ∃ y m d, parse_date_from_name nm = some (y, m, d) ∧
      (daySerial y m d : Int) * 86400 <
        (now.day : Int) * 86400 + now.secOfDay - r * 86400 := by
  rw [shouldDeleteName] at h
  cases hp : parse_date_from_name nm with
  | none => rw [hp] at h; exact absurd h (by simp)
  | some t =>
    obtain ⟨y, m, d⟩ := t
    rw [hp] at h
    exact ⟨y, m, d, rfl, of_decide_eq_true h⟩

/-- The declarative form of a positive-retention cleanup run. -/
theorem cleanup_pos (st : DataDirState) (r : Int) (now : LocalNow)
    (hr : 0 < r) (hex : st.dataDirExists = true) :
    cleanup_old_data st r now =
      (st.newsDbFiles.filter (shouldDeleteName r now) ++
        st.rssDbFiles.filter (shouldDeleteName r now) ++
        (st.txtEntries.filter (fun e => e.isDir && !(nameStartsWithDot e.name) &&
          shouldDeleteName r now e.name)).map (·.name) ++
        (st.htmlEntries.filter (fun e => e.isDir && !(nameStartsWithDot e.name) &&
          shouldDeleteName r now e.name)).map (·.name),
       (st.newsDbFiles.filter (shouldDeleteName r now)).length +
        (st.rssDbFiles.filter (shouldDeleteName r now)).length +
        (st.txtEntries.filter (fun e => e.isDir && !(nameStartsWithDot e.name) &&
          shouldDeleteName r now e.name)).length +
        (st.htmlEntries.filter (fun e => e.isDir && !(nameStartsWithDot e.name) &&
          shouldDeleteName r now e.name)).length) := by
  rw [cleanup_old_data, if_neg (by omega), if_neg (by simp [hex])]
  rw [cleanupDbFold_spec, cleanupDbFold_spec, cleanupDirFold_spec,
    cleanupDirFold_spec]
  simp only [Prod.mk.injEq, List.nil_append, Nat.zero_add, List.append_assoc]

/-- C7: retention deletes exactly the whole month-partition database
files and whole snapshot date directories whose name parses to a date
strictly before now minus the retention window; the returned count is the
number of names removed; a non-positive retention deletes nothing and
returns 0.  (The code path contains no row-level deletion: the deletion
units are whole `.db` files and whole date directories.) -/
theorem cleanup_deletes_whole_partitions (st : DataDirState)
    (retentionDays : Int) (now : LocalNow) :
    (retentionDays ≤ 0 → cleanup_old_data st retentionDays now = ([], 0)) ∧
    (cleanup_old_data st retentionDays now).2 =
      (cleanup_old_data st retentionDays now).1.length ∧
    (0 < retentionDays → st.dataDirExists = true →
      (cleanup_old_data st retentionDays now).1 =
        st.newsDbFiles.filter (shouldDeleteName retentionDays now) ++
        st.rssDbFiles.filter (shouldDeleteName retentionDays now) ++
        (st.txtEntries.filter (fun e => e.isDir && !(nameStartsWithDot e.name) &&
          shouldDeleteName retentionDays now e.name)).map (·.name) ++
        (st.htmlEntries.filter (fun e => e.isDir && !(nameStartsWithDot e.name) &&
          shouldDeleteName retentionDays now e.name)).map (·.name)) ∧
    ∀ nm ∈ (cleanup_old_data st retentionDays now).1, ∃ y m d,
      parse_date_from_name nm = some (y, m, d) ∧
      (daySerial y m d : Int) * 86400 <
        (now.day : Int) * 86400 + now.secOfDay - retentionDays * 86400 := by
  have hle : retentionDays ≤ 0 →
      cleanup_old_data st retentionDays now = ([], 0) := by
    intro h
    rw [cleanup_old_data, if_pos h]
  refine ⟨hle, ?_, ?_, ?_⟩
  · by_cases h0 : retentionDays ≤ 0
    · rw [hle h0]
      rfl
    · by_cases hex : st.dataDirExists = true
      · rw [cleanup_pos st retentionDays now (by omega) hex]
        simp only [List.length_append, List.length_map]
      · have hexf : st.dataDirExists = false := by simpa using hex
        rw [cleanup_old_data, if_neg h0, if_pos (by simp [hexf])]
        rfl
  · intro hr hex
    rw [cleanup_pos st retentionDays now hr hex]
  · intro nm hnm
    by_cases h0 : retentionDays ≤ 0
    · rw [hle h0] at hnm
      exact absurd hnm (by simp)
    · by_cases hex : st.dataDirExists = true
      · rw [cleanup_pos st retentionDays now (by omega) hex] at hnm
        have hdel : shouldDeleteName retentionDays now nm = true := by
          rcases List.mem_append.mp hnm with hnm | hnm
          · rcases List.mem_append.mp hnm with hnm | hnm
            · rcases List.mem_append.mp hnm with hnm | hnm
              · exact (List.mem_filter.mp hnm).2
              · exact (List.mem_filter.mp hnm).2
            · obtain ⟨e, he, rfl⟩ := List.mem_map.mp hnm
              have := (List.mem_filter.mp he).2
              simp only [Bool.and_eq_true] at this
              exact this.2
          · obtain ⟨e, he, rfl⟩ := List.mem_map.mp hnm
            have := (List.mem_filter.mp he).2
            simp only [Bool.and_eq_true] at this
            exact this.2
        exact shouldDelete_parse retentionDays now nm hdel
      · have hexf : st.dataDirExists = false := by simpa using hex
        rw [cleanup_old_data, if_neg h0, if_pos (by simp [hexf])] at hnm
        exact absurd hnm (by simp)

/-- Witness for C7 on a concrete directory state and clock: a negative
retention is a no-op, and for a 30-day retention the deleted set is
exactly the stale names, each parsing to a date past the cutoff. -/
theorem cleanup_deletes_whole_partitions_witness :
    (cleanup_old_data ⟨true, ["2025-08.db", "2025-10.db"], [],
        [⟨"2025-09-01", true⟩, ⟨".hidden", true⟩], []⟩ (-3)
        ⟨daySerial 2025 10 12, 0⟩ = ([], 0)) ∧
      ((-3 : Int) ≤ 0) ∧ (0 : Int) < 30 ∧
      (cleanup_old_data ⟨true, ["2025-08.db", "2025-10.db"], [],
          [⟨"2025-09-01", true⟩, ⟨".hidden", true⟩], []⟩ 30
          ⟨daySerial 2025 10 12, 0⟩).1 =
        ["2025-08.db", "2025-09-01"] := by
  refine ⟨(cleanup_deletes_whole_partitions _ (-3) _).1 (by decide),
    by decide, by decide, ?_⟩
  rw [(cleanup_deletes_whole_partitions _ 30
    ⟨daySerial 2025 10 12, 0⟩).2.2.1 (by decide) rfl]
  decide

/-! ## C6: notification trigger -/

theorem collectFold_spec (updateOk : String → String → String → Bool)
    (data : NewsData) :
    ∀ (l : List ((String × String) × String)) (acc : Nat × List ImportantNews),
      l.foldl (collectStep updateOk data) acc =
        (acc.1 + l.countP (fun kv => updateOk kv.1.1 kv.1.2 kv.2),
         acc.2 ++ (l.filter (fun kv =>
             updateOk kv.1.1 kv.1.2 kv.2 && isTopTwo kv.2)).map
           (fun kv => mkImportantNews data kv.1.1 kv.1.2 kv.2)) := by
  intro l
  induction l with
  | nil => intro acc; simp
  | cons kv rest ih =>
    intro acc
    rw [List.foldl_cons, ih]
    by_cases hu : updateOk kv.1.1 kv.1.2 kv.2 = true
    · by_cases ht : isTopTwo kv.2 = true
      · simp [collectStep, hu, ht, List.countP_cons, List.filter_cons]
        omega
      · simp [collectStep, hu, ht, List.countP_cons, List.filter_cons]
        omega
    · simp [collectStep, hu, List.countP_cons, List.filter_cons]

/-- Counterexample to C6 as stated: a run whose collection of
critical/high items is non-empty but in which no notification channel is
configured does not invoke the sink at all (the guard at
`local.py:285-286` skips it), contradicting "`if that collection is
non-empty the external notification sink is invoked exactly once`". -/
theorem notify_nonempty_without_channels :
    (importanceWorkerRun (fun _ _ _ => true)
        ⟨"d", [("p1", [⟨"A", 1, "u"⟩])], []⟩
        [(("A", "p1"), "critical")] ⟨true, false, [], false⟩).1.2 ≠ [] ∧
      (importanceWorkerRun (fun _ _ _ => true)
        ⟨"d", [("p1", [⟨"A", 1, "u"⟩])], []⟩
        [(("A", "p1"), "critical")] ⟨true, false, [], false⟩).2.sinkCalls
        = 0 := by
  constructor
  · decide
  · rfl

/-- C6 (amended): each run collects exactly the items of this run whose
rating upsert succeeded with a critical or high value; the sink is
invoked exactly once per run when that collection is non-empty, the
notification configuration loads, and at least one channel is
configured — and not at all otherwise; when the invocation returns, the
per-channel success map is reported. -/
theorem notification_trigger_run (updateOk : String → String → String → Bool)
    (data : NewsData) (batchResults : List ((String × String) × String))
    (env : NotifyEnv) :
    (importanceWorkerRun updateOk data batchResults env).1.2 =
      (batchResults.filter (fun kv =>
          updateOk kv.1.1 kv.1.2 kv.2 && isTopTwo kv.2)).map
        (fun kv => mkImportantNews data kv.1.1 kv.1.2 kv.2) ∧
    (importanceWorkerRun updateOk data batchResults env).1.1 =
      batchResults.countP (fun kv => updateOk kv.1.1 kv.1.2 kv.2) ∧
    (importanceWorkerRun updateOk data batchResults env).2.sinkCalls =
      (if (importanceWorkerRun updateOk data batchResults env).1.2 = [] then 0
       else if env.configLoads = false then 0
       else if env.hasConfiguredChannels = false then 0 else 1) ∧
    (importanceWorkerRun updateOk data batchResults env).2.reported =
      (if (importanceWorkerRun updateOk data batchResults env).1.2 = [] then
        (none : Option (List (String × Bool)))
       else if env.configLoads = false then none
       else if env.hasConfiguredChannels = false then none
       else if env.sinkRaises = true then none
       else some env.sinkOutcome) := by
  have hcol : collectImportant updateOk data batchResults =
      (batchResults.countP (fun kv => updateOk kv.1.1 kv.1.2 kv.2),
       (batchResults.filter (fun kv =>
           updateOk kv.1.1 kv.1.2 kv.2 && isTopTwo kv.2)).map
         (fun kv => mkImportantNews data kv.1.1 kv.1.2 kv.2)) := by
    rw [collectImportant, collectFold_spec]
    simp
  have hrun : importanceWorkerRun updateOk data batchResults env =
      (collectImportant updateOk data batchResults,
       notifyImportantNews env (collectImportant updateOk data batchResults).2)
    := rfl
  rw [hrun, hcol]
  refine ⟨rfl, rfl, ?_, ?_⟩ <;>
  · rw [notifyImportantNews]
    by_cases h1 : (batchResults.filter (fun kv =>
        updateOk kv.1.1 kv.1.2 kv.2 && isTopTwo kv.2)).map
          (fun kv => mkImportantNews data kv.1.1 kv.1.2 kv.2) = []
    · simp [h1]
    · cases hcl : env.configLoads <;> cases hch : env.hasConfiguredChannels <;>
        cases hsr : env.sinkRaises <;> simp [h1, hcl, hch, hsr]

/-! ## C9: batch-response matching by exact title -/

/-- `find?` never skips past an earlier satisfying element: if `p a`
holds, the result over `l1 ++ a :: l2` is in `l1` or is `a` itself. -/
theorem find?_in_front {α : Type} (p : α → Bool) :
    ∀ (l1 : List α) (l2 : List α) (a : α), p a = true → ∀ (b : α),
      (l1 ++ a :: l2).find? p = some b → b ∈ l1 ∨ b = a := by
  intro l1
  induction l1 with
  | nil =>
    intro l2 a ha b hfind
    rw [List.nil_append] at hfind
    have : List.find? p (a :: l2) = some a := by
      rw [List.find?_cons, ha]
    rw [this] at hfind
    exact Or.inr (Option.some_inj.mp hfind).symm
  | cons x xs ih =>
    intro l2 a ha b hfind
    rw [List.cons_append, List.find?_cons] at hfind
    cases hx : p x with
    | true =>
      rw [hx] at hfind
      exact Or.inl ((Option.some_inj.mp hfind).symm ▸ List.mem_cons_self x xs)
    | false =>
      rw [hx] at hfind
      rcases ih l2 a ha b hfind with hb | hb
      · exact Or.inl (List.mem_cons_of_mem x hb)
      · exact Or.inr hb

/-- If no response title can select `k'`, processing the `results` array
leaves `k'`'s binding unchanged. -/
theorem processResultsList_keeps (keys : List (String × String))
    (k' : String × String)
    (hk' : ∀ tv : Json, keys.find? (fun kk => tv.eqStr kk.1) ≠ some k') :
    ∀ (xs : List Json) (acc : List ((String × String) × String)),
      findRating (processResultsList keys xs acc).1 k' = findRating acc k' := by
  intro xs
  induction xs with
  | nil => intro acc; rfl
  | cons r rest ih =>
    intro acc
    cases r with
    | obj fields =>
      rw [processResultsList]
      split
      · rename_i s himp
        rw [ih]
        split
        · split
          · rename_i k hfind
            exact findRating_setResult_ne acc k k' (strLower s)
              (fun he => hk' _ (he ▸ hfind))
          · rfl
        · rfl
      · rfl
    | null => rfl
    | bool b => rfl
    | num n => rfl
    | str s => rfl
    | arr ys => rfl

/-- A step of the legacy-dictionary branch at a key whose title the
dictionary rates with a vocabulary value performs exactly that upsert. -/
theorem compatStep_pos (fields : List (String × Json))
    (acc : List ((String × String) × String)) (k : String × String) (v : Json)
    (hlook : jsonLookup fields k.1 = some v)
    (hval : isValidRating (strLower (pyStr v)) = true) :
    compatStep fields acc k = setResult acc k (strLower (pyStr v)) := by
  rw [compatStep, hlook]
  exact if_pos hval

/-- Once a key's binding carries the rating the legacy-dictionary branch
assigns for its title, the rest of the fold keeps it. -/
theorem compatFold_keeps (fields : List (String × Json))
    (k : String × String) (v : Json)
    (hlook : jsonLookup fields k.1 = some v)
    (hval : isValidRating (strLower (pyStr v)) = true) :
    ∀ (l : List (String × String)) (acc : List ((String × String) × String)),
      findRating acc k = some (strLower (pyStr v)) →
      findRating (l.foldl (compatStep fields) acc) k =
        some (strLower (pyStr v)) := by
  intro l
  induction l with
  | nil => intro acc hacc; exact hacc
  | cons kk rest ih =>
    intro acc hacc
    rw [List.foldl_cons]
    apply ih
    by_cases hksame : kk = k
    · subst hksame
      rw [compatStep_pos fields acc kk v hlook hval]
      exact findRating_setResult_self acc kk (strLower (pyStr v))
    · rw [compatStep]
      split
      · split
        · rename_i w hw _
          rw [findRating_setResult_ne acc kk k (strLower (pyStr w))
            (fun he => hksame he.symm)]
          exact hacc
        · exact hacc
      · exact hacc

/-- In the legacy direct-dictionary branch, every requested key whose
title the dictionary rates with a vocabulary value receives that value. -/
theorem compat_assigns_every_match (fields : List (String × Json))
    (keys : List (String × String)) (k : String × String) (v : Json)
    (hk : k ∈ keys) (hlook : jsonLookup fields k.1 = some v)
    (hval : isValidRating (strLower (pyStr v)) = true) :
    ∀ acc, findRating (compatAssign fields keys acc) k =
      some (strLower (pyStr v)) := by
  intro acc
  obtain ⟨l1, l2, rfl⟩ := List.append_of_mem hk
  rw [compatAssign, List.foldl_append, List.foldl_cons]
  apply compatFold_keeps fields k v hlook hval
  rw [compatStep_pos fields _ k v hlook hval]
  exact findRating_setResult_self _ k (strLower (pyStr v))

/-- Counterexample to C9 as stated: two requested items share the title
"A" on different platforms, and the batch response is the legacy
direct-dictionary shape `\x7b"A": "high"\x7d`; then the rating is assigned to
BOTH items, so the non-first duplicate does receive a rating from the
batch response. -/
theorem batch_duplicate_title_counterexample :
    findRating (batch_analyze_importance true
        ⟨fun _ => .ok (.obj [("A", .str "high")]), fun _ => .malformed⟩
        [⟨"A", "p1", "P1", 1⟩, ⟨"A", "p2", "P2", 2⟩] 20).results ("A", "p2") =
      some "high" ∧
    findRating (batch_analyze_importance true
        ⟨fun _ => .ok (.obj [("A", .str "high")]), fun _ => .malformed⟩
        [⟨"A", "p1", "P1", 1⟩, ⟨"A", "p2", "P2", 2⟩] 20).results ("A", "p1") =
      some "high" := ⟨rfl, rfl⟩

/-- C9 (amended): every key of the mapping returned by
`batch_analyze_importance` is the `(title, platform_id)` of some
requested input item, and matching is by exact title.  In the
`results`-array response shape, matching is first-match-wins: a
requested key that shares its title with an earlier requested key
receives nothing from the array.  In the legacy direct-dictionary
shape, every requested key whose title the dictionary rates receives
the rating (duplicates included). -/
theorem batch_matching_by_title (hasApiKey : Bool) (env : ClassifierEnv)
    (items : List NewsInput) (bs : Nat) :
    ((batch_analyze_importance hasApiKey env items bs).results.all
        (fun kv => (items.map (fun it =>
          (it.title, it.platform_id))).contains kv.1)) = true ∧
    (∀ (fields : List (String × Json)) (xs : List Json)
        (ks1 ks2 : List (String × String)) (k k' : String × String)
        (acc : List ((String × String) × String)),
      jsonLookup fields "results" = some (.arr xs) →
      k'.1 = k.1 → k' ∉ ks1 → k' ≠ k →
      findRating (processBatchJson (.obj fields) (ks1 ++ k :: ks2) acc).1 k' =
        findRating acc k') ∧
    ∀ (fields : List (String × Json)) (keys : List (String × String))
      (k : String × String) (v : Json)
      (acc : List ((String × String) × String)),
      jsonLookup fields "results" = none →
      k ∈ keys → jsonLookup fields k.1 = some v →
      isValidRating (strLower (pyStr v)) = true →
      findRating (processBatchJson (.obj fields) keys acc).1 k =
        some (strLower (pyStr v)) := by
  refine ⟨?_, ?_, ?_⟩
  · rw [List.all_eq_true]
    intro kv hkv
    obtain ⟨⟨it, hit, hkey⟩, _⟩ := run_results_spec hasApiKey env items bs kv hkv
    rw [hkey]
    exact List.elem_eq_true_of_mem (List.mem_map_of_mem _ hit)
  · intro fields xs ks1 ks2 k k' acc hres htitle hnot hne
    rw [processBatchJson, hres]
    apply processResultsList_keeps
    intro tv hfind
    have hp : tv.eqStr k'.1 = true := by
      have := List.find?_some hfind
      simpa using this
    have htv : tv = .str k'.1 := by
      cases tv <;> simp [Json.eqStr] at hp
      rename_i s
      rw [hp]
    have hpk : (fun kk : String × String => tv.eqStr kk.1) k = true := by
      rw [htv, htitle]
      simp [Json.eqStr]
    rcases find?_in_front _ ks1 ks2 k hpk k' hfind with hmem | heq
    · exact hnot hmem
    · exact hne heq
  · intro fields keys k v acc hres hk hlook hval
    rw [processBatchJson, hres]
    exact compat_assigns_every_match fields keys k v hk hlook hval acc

/-- Witness for C9 (amended) on concrete batch responses: with the
`results`-array shape rating title "A", the duplicate-titled second key
`("A", "p2")` stays unbound; with the legacy dictionary shape, the second
key receives the rating. -/
theorem batch_matching_by_title_witness :
    (jsonLookup [("results", Json.arr [Json.obj [("title", Json.str "A"),
        ("importance", Json.str "high")]])] "results" =
      some (.arr [Json.obj [("title", Json.str "A"),
        ("importance", Json.str "high")]])) ∧
      (("A", "p2") : String × String).1 = (("A", "p1") : String × String).1 ∧
      (("A", "p2") : String × String) ∉ ([] : List (String × String)) ∧
      (("A", "p2") : String × String) ≠ ("A", "p1") ∧
      findRating (processBatchJson
          (.obj [("results", Json.arr [Json.obj [("title", Json.str "A"),
            ("importance", Json.str "high")]])])
          ([] ++ ("A", "p1") :: [("A", "p2")]) []).1 ("A", "p2") =
        findRating [] ("A", "p2") ∧
      findRating (processBatchJson (.obj [("A", Json.str "high")])
          [("A", "p1"), ("A", "p2")] []).1 ("A", "p2") =
        some (strLower (pyStr (Json.str "high"))) := by
  refine ⟨rfl, rfl, by decide, by decide, ?_, ?_⟩
  · exact (batch_matching_by_title true ⟨fun _ => .exn, fun _ => .exn⟩ [] 20).2.1
      [("results", Json.arr [Json.obj [("title", Json.str "A"),
        ("importance", Json.str "high")]])]
      [Json.obj [("title", Json.str "A"), ("importance", Json.str "high")]]
      [] [("A", "p2")] ("A", "p1") ("A", "p2") [] rfl rfl (by decide) (by decide)
  · exact (batch_matching_by_title true ⟨fun _ => .exn, fun _ => .exn⟩ [] 20).2.2
      [("A", Json.str "high")] [("A", "p1"), ("A", "p2")] ("A", "p2")
      (Json.str "high") [] rfl (by decide) rfl (by decide)

/-! ## C2: batch-to-per-item fallback -/

/-- The externally visible calls of one per-item fallback pass: exactly
one classification call per filtered item, in batch order, each followed
by the one-second delay. -/
def fallbackCallTrace (batch : List NewsInput) : List CallEvent :=
  (batch.filter itemOk).flatMap
    (fun it => [CallEvent.singleCall it.title it.platform_id,
      CallEvent.sleep 1])

theorem runFallback_trace (env : ClassifierEnv) :
    ∀ (batch : List NewsInput) (st : RunState),
      (runFallback env st batch).trace = st.trace ++ fallbackCallTrace batch := by
  intro batch
  induction batch with
  | nil => intro st; simp [runFallback, fallbackCallTrace]
  | cons it rest ih =>
    intro st
    simp only [runFallback, List.foldl_cons] at ih ⊢
    rw [ih]
    by_cases hok : itemOk it = true
    · rw [fallbackStep, if_pos hok]
      simp only [fallbackCallTrace, List.filter_cons_of_pos hok,
        List.flatMap_cons]
      simp [List.append_assoc]
    · rw [fallbackStep, if_neg hok]
      simp only [fallbackCallTrace,
        List.filter_cons_of_neg (by simpa using hok)]

theorem runFallback_count (env : ClassifierEnv) :
    ∀ (batch : List NewsInput) (st : RunState),
      (runFallback env st batch).singleCount =
        st.singleCount + (batch.filter itemOk).length := by
  intro batch
  induction batch with
  | nil => intro st; simp [runFallback]
  | cons it rest ih =>
    intro st
    simp only [runFallback, List.foldl_cons] at ih ⊢
    rw [ih]
    by_cases hok : itemOk it = true
    · rw [fallbackStep, if_pos hok, List.filter_cons_of_pos hok]
      simp only [List.length_cons]
      omega
    · rw [fallbackStep, if_neg hok,
        List.filter_cons_of_neg (by simpa using hok)]

theorem runFallback_results (env : ClassifierEnv) :
    ∀ (batch : List NewsInput) (st : RunState)
      (kv : (String × String) × String),
      kv ∈ (runFallback env st batch).results →
      kv ∈ st.results ∨ (kv.2 ≠ "" ∧
        (∃ n, kv.2 = analyze_news_importance true (env.singleResponse n)) ∧
        ∃ it ∈ batch, itemOk it = true ∧ kv.1 = (it.title, it.platform_id)) := by
  intro batch
  induction batch with
  | nil => intro st kv hkv; exact Or.inl hkv
  | cons it rest ih =>
    intro st kv hkv
    simp only [runFallback, List.foldl_cons] at hkv
    rcases ih (fallbackStep env st it) kv hkv with hst | ⟨hne, hana, it', hit', hrest⟩
    · rw [fallbackStep] at hst
      by_cases hok : itemOk it = true
      · rw [if_pos hok] at hst
        by_cases himp : analyze_news_importance true
            (env.singleResponse st.singleCount) ≠ ""
        · simp only [if_pos himp] at hst
          rcases mem_setResult _ _ _ kv hst with rfl | hmem
          · exact Or.inr ⟨himp, ⟨st.singleCount, rfl⟩,
              it, List.mem_cons_self it rest, hok, rfl⟩
          · exact Or.inl hmem
        · simp only [if_neg himp] at hst
          exact Or.inl hst
      · rw [if_neg hok] at hst
        exact Or.inl hst
    · exact Or.inr ⟨hne, hana, it', List.mem_cons_of_mem it hit', hrest⟩

theorem chunkPre_results (i : Nat) (st : RunState) :
    (chunkPre i st).results = st.results := by
  rw [chunkPre]
  split <;> rfl

theorem chunkPre_count (i : Nat) (st : RunState) :
    (chunkPre i st).singleCount = st.singleCount := by
  rw [chunkPre]
  split <;> rfl

/-- C2: for a batch whose classifier response is malformed JSON or whose
remote call raises, the pipeline emits the batch call and then exactly
one per-item fallback call for each item of that batch with a non-empty
title and platform id, in order, each followed by the short delay; the
per-item call counter advances by exactly that number of items; and every
results-dict binding after the batch is either a pre-existing one or the
non-empty (successful) outcome of one of the per-item calls for an item
of this batch.  The last conjunct ties the per-chunk statement to
`batch_analyze_importance`, which is the chunk-indexed fold of this
processing over `news_items[i:i+batch_size]` slices. -/
theorem batch_fallback_policy (env : ClassifierEnv) (i : Nat) (st : RunState)
    (batch : List NewsInput)
    (hfail : env.batchResponse i = .malformed ∨ env.batchResponse i = .exn)
    (hkeys : batchKeys batch ≠ []) :
    (processChunk env i st batch).trace =
      (chunkPre i st).trace ++ [CallEvent.batchCall (batchKeys batch)] ++
        fallbackCallTrace batch ∧
    (processChunk env i st batch).singleCount =
      st.singleCount + (batch.filter itemOk).length ∧
    (∀ kv ∈ (processChunk env i st batch).results,
      kv ∈ st.results ∨ (kv.2 ≠ "" ∧
        (∃ n, kv.2 = analyze_news_importance true (env.singleResponse n)) ∧
        ∃ it ∈ batch, itemOk it = true ∧ kv.1 = (it.title, it.platform_id))) ∧
    ∀ (hasApiKey : Bool) (items : List NewsInput) (bs : Nat),
      items ≠ [] → hasApiKey = true →
      batch_analyze_importance hasApiKey env items bs =
        runBatches env 0 ⟨[], 0, []⟩ (chunks bs items) := by
  have hdisp : processChunk env i st batch =
      runFallback env (chunkCalled (chunkPre i st) batch) batch := by
    rw [processChunk, if_neg hkeys, chunkDispatch]
    rcases hfail with hf | hf <;> rw [hf]
  refine ⟨?_, ?_, ?_, ?_⟩
  · rw [hdisp, runFallback_trace]
    rfl
  · rw [hdisp, runFallback_count]
    have : (chunkCalled (chunkPre i st) batch).singleCount = st.singleCount := by
      rw [chunkCalled]
      exact chunkPre_count i st
    rw [this]
  · intro kv hkv
    rw [hdisp] at hkv
    have hres : (chunkCalled (chunkPre i st) batch).results = st.results := by
      rw [chunkCalled]
      exact chunkPre_results i st
    have := runFallback_results env batch _ kv hkv
    rw [hres] at this
    exact this
  · intro hasApiKey items bs hitems hkey
    rw [batch_analyze_importance, if_neg hitems, hkey]
    rfl

/-- Witness for C2: a malformed batch response over five valid items
produces exactly five per-item fallback calls with a delay after each,
and the call counter advances by exactly five. -/
theorem batch_fallback_policy_witness :
    (ClassifierEnv.batchResponse
        ⟨fun _ => .malformed, fun _ => .ok (.obj [("importance",
          Json.str "low")])⟩ 0 = .malformed ∨
      ClassifierEnv.batchResponse
        ⟨fun _ => .malformed, fun _ => .ok (.obj [("importance",
          Json.str "low")])⟩ 0 = .exn) ∧
      batchKeys [⟨"A", "p", "P", 1⟩, ⟨"B", "p", "P", 2⟩, ⟨"C", "p", "P", 3⟩,
        ⟨"D", "p", "P", 4⟩, ⟨"E", "p", "P", 5⟩] ≠ [] ∧
      (processChunk ⟨fun _ => .malformed, fun _ => .ok (.obj [("importance",
          Json.str "low")])⟩ 0 ⟨[], 0, []⟩
        [⟨"A", "p", "P", 1⟩, ⟨"B", "p", "P", 2⟩, ⟨"C", "p", "P", 3⟩,
          ⟨"D", "p", "P", 4⟩, ⟨"E", "p", "P", 5⟩]).trace =
        [CallEvent.batchCall [("A", "p"), ("B", "p"), ("C", "p"), ("D", "p"),
          ("E", "p")],
         CallEvent.singleCall "A" "p", CallEvent.sleep 1,
         CallEvent.singleCall "B" "p", CallEvent.sleep 1,
         CallEvent.singleCall "C" "p", CallEvent.sleep 1,
         CallEvent.singleCall "D" "p", CallEvent.sleep 1,
         CallEvent.singleCall "E" "p", CallEvent.sleep 1] ∧
      (processChunk ⟨fun _ => .malformed, fun _ => .ok (.obj [("importance",
          Json.str "low")])⟩ 0 ⟨[], 0, []⟩
        [⟨"A", "p", "P", 1⟩, ⟨"B", "p", "P", 2⟩, ⟨"C", "p", "P", 3⟩,
          ⟨"D", "p", "P", 4⟩, ⟨"E", "p", "P", 5⟩]).singleCount = 5 := by
  refine ⟨Or.inl rfl, by decide, ?_, ?_⟩
  · rw [(batch_fallback_policy ⟨fun _ => .malformed, fun _ => .ok
      (.obj [("importance", Json.str "low")])⟩ 0 ⟨[], 0, []⟩
      [⟨"A", "p", "P", 1⟩, ⟨"B", "p", "P", 2⟩, ⟨"C", "p", "P", 3⟩,
        ⟨"D", "p", "P", 4⟩, ⟨"E", "p", "P", 5⟩] (Or.inl rfl) (by decide)).1]
    decide
  · rw [(batch_fallback_policy ⟨fun _ => .malformed, fun _ => .ok
      (.obj [("importance", Json.str "low")])⟩ 0 ⟨[], 0, []⟩
      [⟨"A", "p", "P", 1⟩, ⟨"B", "p", "P", 2⟩, ⟨"C", "p", "P", 3⟩,
        ⟨"D", "p", "P", 4⟩, ⟨"E", "p", "P", 5⟩] (Or.inl rfl) (by decide)).2.1]
    decide

/-! ## C8: per-thread connections in WAL mode -/

/-- Pool invariant: every handle cached in any thread's dict points to a
connection opened by that thread, for that path, with WAL enabled. -/
def PoolInv (st : ConnPoolState) : Prop :=
  ∀ (t : Nat) (pr : String × Nat), pr ∈ st.threadMap t →
    ∃ c, st.conns[pr.2]? = some c ∧ c.owner = t ∧ c.path = pr.1 ∧
      c.walEnabled = true

theorem getConnection_cached (st : ConnPoolState) (t : Nat) (p : String)
    (q : String × Nat)
    (hf : (st.threadMap t).find? (fun pr => pr.1 = p) = some q) :
    getConnection st t p = (q.2, st) := by
  rw [getConnection, hf]

theorem getConnection_new (st : ConnPoolState) (t : Nat) (p : String)
    (hf : (st.threadMap t).find? (fun pr => pr.1 = p) = none) :
    getConnection st t p = (st.conns.length,
      { conns := st.conns ++ [⟨t, p, true⟩],
        threadMap := fun t' =>
          if t' = t then st.threadMap t' ++ [(p, st.conns.length)]
          else st.threadMap t' }) := by
  rw [getConnection, hf]

theorem lt_length_of_getElem?_some {α : Type} (l : List α) (i : Nat) (c : α)
    (hc : l[i]? = some c) : i < l.length := by
  by_contra hge
  rw [List.getElem?_eq_none (by omega)] at hc
  exact absurd hc (by simp)

theorem poolInv_getConnection (st : ConnPoolState) (t : Nat) (p : String)
    (hinv : PoolInv st) : PoolInv (getConnection st t p).2 := by
  cases hf : (st.threadMap t).find? (fun pr => pr.1 = p) with
  | some q =>
    rw [getConnection_cached st t p q hf]
    exact hinv
  | none =>
    rw [getConnection_new st t p hf]
    intro t' pr hpr
    simp only at hpr
    by_cases ht : t' = t
    · rw [if_pos ht] at hpr
      rcases List.mem_append.mp hpr with hold | hnew
      · obtain ⟨c, hc, hco, hcp, hcw⟩ := hinv t' pr hold
        have hlt : pr.2 < st.conns.length :=
          lt_length_of_getElem?_some st.conns pr.2 c hc
        exact ⟨c, by rw [List.getElem?_append_left hlt]; exact hc, hco, hcp, hcw⟩
      · rw [List.mem_singleton] at hnew
        subst hnew
        exact ⟨⟨t, p, true⟩, by simp, ht.symm, rfl, rfl⟩
    · rw [if_neg ht] at hpr
      obtain ⟨c, hc, hco, hcp, hcw⟩ := hinv t' pr hpr
      have hlt : pr.2 < st.conns.length :=
        lt_length_of_getElem?_some st.conns pr.2 c hc
      exact ⟨c, by rw [List.getElem?_append_left hlt]; exact hc, hco, hcp, hcw⟩

theorem getConnection_extends (st : ConnPoolState) (t : Nat) (p : String)
    (i : Nat) (c : SqliteConn) (hc : st.conns[i]? = some c) :
    (getConnection st t p).2.conns[i]? = some c := by
  cases hf : (st.threadMap t).find? (fun pr => pr.1 = p) with
  | some q =>
    rw [getConnection_cached st t p q hf]
    exact hc
  | none =>
    rw [getConnection_new st t p hf]
    have hlt : i < st.conns.length := lt_length_of_getElem?_some st.conns i c hc
    simp only
    rw [List.getElem?_append_left hlt]
    exact hc

theorem getConnection_ret (st : ConnPoolState) (t : Nat) (p : String)
    (hinv : PoolInv st) :
    ∃ c, (getConnection st t p).2.conns[(getConnection st t p).1]? = some c ∧
      c.owner = t ∧ c.walEnabled = true := by
  cases hf : (st.threadMap t).find? (fun pr => pr.1 = p) with
  | some q =>
    rw [getConnection_cached st t p q hf]
    obtain ⟨c, hc, hco, _, hcw⟩ :=
      hinv t q (List.mem_of_find?_eq_some hf)
    exact ⟨c, hc, hco, hcw⟩
  | none =>
    rw [getConnection_new st t p hf]
    exact ⟨⟨t, p, true⟩, by simp, rfl, rfl⟩

theorem runConnRequests_spec :
    ∀ (reqs : List (Nat × String)) (st : ConnPoolState), PoolInv st →
      PoolInv (runConnRequests st reqs).1 ∧
      (∀ (i : Nat) (c : SqliteConn), st.conns[i]? = some c →
        (runConnRequests st reqs).1.conns[i]? = some c) ∧
      ∀ tc ∈ (runConnRequests st reqs).2,
        ∃ c, (runConnRequests st reqs).1.conns[tc.2]? = some c ∧
          c.owner = tc.1 ∧ c.walEnabled = true := by
  intro reqs
  induction reqs with
  | nil =>
    intro st hinv
    exact ⟨hinv, fun i c hc => hc, by simp [runConnRequests]⟩
  | cons r rest ih =>
    intro st hinv
    obtain ⟨t, p⟩ := r
    have hinv' := poolInv_getConnection st t p hinv
    obtain ⟨hfin, hext, hrets⟩ := ih (getConnection st t p).2 hinv'
    rw [runConnRequests]
    refine ⟨hfin, ?_, ?_⟩
    · intro i c hc
      exact hext i c (getConnection_extends st t p i c hc)
    · intro tc htc
      rcases List.mem_cons.mp htc with rfl | htc'
      · obtain ⟨c, hc, hco, hcw⟩ := getConnection_ret st t p hinv
        exact ⟨c, hext _ c hc, hco, hcw⟩
      · exact hrets tc htc'

/-- C8: over any sequence of `_get_connection` requests starting from a
fresh backend, every handle handed to a thread names a connection opened
by that same thread with WAL journal mode enabled at creation, and two
requests from distinct threads never receive the same connection handle
(the dict of connections is `threading.local`, so no connection object is
shared across threads). -/
theorem per_thread_wal_connections (reqs : List (Nat × String)) :
    (∀ tc ∈ (runConnRequests initConnPool reqs).2,
      ∃ c, (runConnRequests initConnPool reqs).1.conns[tc.2]? = some c ∧
        c.owner = tc.1 ∧ c.walEnabled = true) ∧
    ∀ tc tc', tc ∈ (runConnRequests initConnPool reqs).2 →
      tc' ∈ (runConnRequests initConnPool reqs).2 →
      tc.1 ≠ tc'.1 → tc.2 ≠ tc'.2 := by
  have hinit : PoolInv initConnPool := by
    intro t pr hpr
    exact absurd hpr (by simp [initConnPool])
  have h := runConnRequests_spec reqs initConnPool hinit
  refine ⟨h.2.2, ?_⟩
  intro tc tc' htc htc' hne heq
  obtain ⟨c, hc, hco, _⟩ := h.2.2 tc htc
  obtain ⟨c', hc', hco', _⟩ := h.2.2 tc' htc'
  rw [heq, hc'] at hc
  exact hne (by rw [← hco, ← hco', Option.some_inj.mp hc])

/-- Witness for C8: two threads asking for the same partition path
receive distinct handles (0 and 1). -/
theorem per_thread_wal_connections_witness :
    ((1, 0) ∈ (runConnRequests initConnPool [(1, "a"), (2, "a")]).2 ∧
      (2, 1) ∈ (runConnRequests initConnPool [(1, "a"), (2, "a")]).2 ∧
      (1 : Nat) ≠ 2) ∧ (0 : Nat) ≠ 1 :=
  ⟨⟨by decide, by decide, by decide⟩,
    (per_thread_wal_connections [(1, "a"), (2, "a")]).2 (1, 0) (2, 1)
      (by decide) (by decide) (by decide)⟩

end HotSpot
